import Mathlib

/-!
# Verification of the agent orchestration loop

A shallow embedding of the agent core of this repository:

* `src/agent/models.py` — `ChatMessage`, `Conversation` and its append
  operations, `get_messages_since`;
* `src/agent/loop.py` — `process_message`, the per-call dispatch with the
  download dedup cache, the emitted-file set, `_verify_download`, result
  truncation for the LLM transcript.

External collaborators (the LLM client, the three tool capabilities, the
JSON serializer used on tool results, configuration/runtime resolution)
are modelled as an explicit environment `LoopEnv`: the LLM is a stream of
responses indexed by the round-trip number, a capability invocation is a
function of the execution index (so two executions of the same arguments
may differ, as in reality), and any of them may fault (`Except`), which
models a Python exception propagating into the loop.

Wall-clock readings (message timestamps, measured durations) are modelled
as environment-supplied data: the loop records the duration `execDur i`
for the `i`-th real capability invocation, and the literal `0` exactly
where the source writes a literal `0` (dedup hits, unknown tools).
Message creation timestamps are omitted from the message model.
-/

set_option autoImplicit false

namespace BrightAgent

/-- The argument mapping of one tool call, restricted to the fields the
loop itself reads (`fn_args.get("url", "")`, `fn_args.get("filename", "")`).
Other arguments flow opaquely to the capability and are not modelled. -/
structure Args where
  url : String := ""
  filename : String := ""
deriving DecidableEq

/-- A tool-result mapping, restricted to the keys the loop reads.
Absent keys are modelled by the Python-falsy defaults the loop's
`.get(...)` calls supply: `success`/`deduplicated` default to falsy,
`filename` to `""`, `size_bytes` to `0`; `warning`/`error`/`dedupReason`
use `""` for "absent or empty" (both are falsy in Python). -/
structure ToolResult where
  success : Bool := false
  deduplicated : Bool := false
  dedupReason : String := ""
  filename : String := ""
  path : String := ""
  size_bytes : Nat := 0
  warning : String := ""
  error : String := ""
deriving DecidableEq

/-- Character-wise lower-casing, written over the character list so that
it reduces definitionally (Python `str.lower`; also the model of
`str.casefold`, adequate on ASCII filenames). -/
def strLower (s : String) : String := ⟨s.data.map Char.toLower⟩

/-- Character-wise upper-casing (Python `str.upper`). -/
def strUpper (s : String) : String := ⟨s.data.map Char.toUpper⟩

/-- Python `s.endswith(t)`. -/
def strEndsWith (s t : String) : Bool := t.data.isSuffixOf s.data

/-- `str.casefold()` as used on filenames. -/
def casefold (s : String) : String := strLower s

/-- One message of the human-visible transcript (`ChatMessage` in
`models.py`). The wall-clock `timestamp` field is not modelled. -/
structure ChatMessage where
  role : String
  content : String
  tool_name : Option String := none
  tool_args : Option Args := none
  tool_result : Option ToolResult := none
  tool_duration_ms : Option Nat := none
  filename : Option String := none
  file_path : Option String := none
  file_size : Option Nat := none
deriving DecidableEq

/-- The transport record produced by `ChatMessage.to_dict` (minus the
timestamp key): role and content always, tool fields when `tool_name` is
truthy, file fields when `filename` is truthy. -/
structure MsgDict where
  role : String
  content : String
  tool_name : Option String := none
  tool_args : Option Args := none
  tool_result : Option ToolResult := none
  tool_duration_ms : Option Nat := none
  filename : Option String := none
  file_path : Option String := none
  file_size : Option Nat := none
deriving DecidableEq

/-- Python truthiness of an optional string: present and non-empty. -/
def truthyOptStr : Option String → Bool
  | some s => !s.isEmpty
  | none => false

def ChatMessage.to_dict (m : ChatMessage) : MsgDict :=
  let d : MsgDict := { role := m.role, content := m.content }
  let d : MsgDict :=
    if truthyOptStr m.tool_name then
      { d with tool_name := m.tool_name, tool_args := m.tool_args,
               tool_result := m.tool_result, tool_duration_ms := m.tool_duration_ms }
    else d
  if truthyOptStr m.filename then
    { d with filename := m.filename, file_path := m.file_path, file_size := m.file_size }
  else d

/-- One requested tool call from an LLM response:
`tc.id`, `tc.function.name`, and the parsed `tc.function.arguments`. -/
structure ToolCall where
  id : String
  name : String
  args : Args
deriving DecidableEq

/-- One entry of the model-facing transcript (`conversation.openai_messages`):
the loop only ever builds these five shapes of dict. An assistant turn that
carries tool calls is the `assistant_msg.model_dump()` appended verbatim. -/
inductive OpenAIMsg where
  | system (content : String)
  | user (content : String)
  | assistant (content : String)
  | assistantToolCalls (content : String) (tool_calls : List ToolCall)
  | tool (tool_call_id : String) (content : String)
deriving DecidableEq

/-- The `"role"` key of a transcript entry dict. -/
def OpenAIMsg.role : OpenAIMsg → String
  | .system _ => "system"
  | .user _ => "user"
  | .assistant _ => "assistant"
  | .assistantToolCalls _ _ => "assistant"
  | .tool _ _ => "tool"

/-- `Conversation` from `models.py` (the `id` and `is_processing` fields
play no role in the claims under study and are kept as plain data). -/
structure Conversation where
  id : String := ""
  messages : List ChatMessage := []
  openai_messages : List OpenAIMsg := []
  is_processing : Bool := false
deriving DecidableEq

namespace Conversation

/-- `add_user_message`: appends a user Message and a user transcript entry.
(The Python method returns the new message; we return the updated state.) -/
def add_user_message (c : Conversation) (content : String) : Conversation :=
  { c with
    messages := c.messages ++ [{ role := "user", content := content }],
    openai_messages := c.openai_messages ++ [.user content] }

/-- `add_assistant_message`: appends an assistant Message only; the
transcript entry for assistant turns is managed by the loop. -/
def add_assistant_message (c : Conversation) (content : String) : Conversation :=
  { c with messages := c.messages ++ [{ role := "assistant", content := content }] }

/-- The tool_activity Message built by `add_tool_activity`. -/
def mkToolActivity (tool_name : String) (args : Args) (result : ToolResult)
    (duration_ms : Nat) : ChatMessage :=
  { role := "tool_activity", content := "Called " ++ tool_name,
    tool_name := some tool_name, tool_args := some args,
    tool_result := some result, tool_duration_ms := some duration_ms }

def add_tool_activity (c : Conversation) (tool_name : String) (args : Args)
    (result : ToolResult) (duration_ms : Nat) : Conversation :=
  { c with messages := c.messages ++ [mkToolActivity tool_name args result duration_ms] }

/-- The file Message built by `add_file_message`. -/
def mkFileMessage (filename path : String) (size : Nat) : ChatMessage :=
  { role := "file", content := "Downloaded " ++ filename,
    filename := some filename, file_path := some path, file_size := some size }

def add_file_message (c : Conversation) (filename path : String) (size : Nat) :
    Conversation :=
  { c with messages := c.messages ++ [mkFileMessage filename path size] }

/-- `add_system_message`: appends a system Message AND a user-role
transcript entry prefixed with the system-check marker. -/
def add_system_message (c : Conversation) (content : String) : Conversation :=
  { c with
    messages := c.messages ++ [{ role := "system", content := content }],
    openai_messages := c.openai_messages ++ [.user ("[SYSTEM CHECK] " ++ content)] }

end Conversation

/-- Python `l[i:]` for an `int` index: non-negative indices drop a prefix,
negative indices start at `max 0 (len + i)` (natural subtraction clamps). -/
def pySuffixFrom {α : Type} (l : List α) (i : Int) : List α :=
  if 0 ≤ i then l.drop i.toNat else l.drop (l.length - (-i).toNat)

/-- `Conversation.get_messages_since`: serialize every message from
`index` onward; a pure read. -/
def Conversation.get_messages_since (c : Conversation) (index : Int) : List MsgDict :=
  (pySuffixFrom c.messages index).map ChatMessage.to_dict

/-! ## Verification policy (`_verify_download` and its strings) -/

/-- Insert a separator before every group of three digits, the digit list
being given least-significant first. -/
def groupDigits : List Char → List Char
  | a :: b :: c :: d :: rest => a :: b :: c :: ',' :: groupDigits (d :: rest)
  | l => l

/-- Python `f"{n:,}"` on a non-negative int: decimal digits with a comma
every three digits. -/
def fmtComma (n : Nat) : String :=
  ⟨(groupDigits (toString n).data.reverse).reverse⟩

/-- `_MIN_SIZES`, in Python dict insertion order (the order the
size-check loop iterates the keys in). -/
def MIN_SIZES : List (String × Nat) := [(".pdf", 20000), (".xlsx", 5000), (".xls", 5000)]

/-- The `for e in _MIN_SIZES` loop with `break`: the first extension that
`filename.lower()` ends with, together with its floor. -/
def findSizeExt (filename : String) : Option (String × Nat) :=
  MIN_SIZES.find? (fun p => strEndsWith (strLower filename) p.1)

/-- The size-warning sentence of `_verify_download`. -/
def sizeWarningText (ext : String) (size floor : Nat) : String :=
  "File size (" ++ fmtComma size ++ " bytes) is suspiciously small for a "
    ++ strUpper ext ++ " file. Expected at least " ++ fmtComma floor
    ++ " bytes. The URL may have returned an error page."

/-- `_verify_download`: collect the size warning (when the extension is
known and the size is under its floor) and any capability-attached
warning, and join them under the verification-warning header; `none`
when there is nothing to warn about. -/
def verify_download (result : ToolResult) : Option String :=
  let sizeWs : List String :=
    match findSizeExt result.filename with
    | some (e, m) =>
        if result.size_bytes < m then [sizeWarningText e result.size_bytes m] else []
    | none => []
  let ws := sizeWs ++ (if result.warning.isEmpty then [] else [result.warning])
  if ws.isEmpty then none
  else some ("DOWNLOAD VERIFICATION WARNING:\n"
    ++ String.intercalate "\n" (ws.map (fun w => "- " ++ w)))

/-- The `... [truncated]` treatment of a serialized tool result before it
enters the transcript. -/
def truncateResult (s : String) : String :=
  if s.length > 15000 then s.take 15000 ++ "... [truncated]" else s

/-- `pat` occurs contiguously inside `s`. -/
def containsStr (s pat : String) : Prop :=
  ∃ pre post : List Char, s.data = pre ++ pat.data ++ post

/-! ## The agent loop (`process_message` in `loop.py`) -/

/-- One LLM response as the loop reads it: `assistant_msg.content or ""`
(so `""` models both a missing and an empty text) and the tool-call list
(`[]` models both `None` and an empty list, matching the
`if not assistant_msg.tool_calls` test). -/
structure LLMResponse where
  content : String := ""
  tool_calls : List ToolCall := []

/-- The slice of the configuration the loop consumes:
`cfg.agent.max_tool_calls`. -/
structure AgentCfg where
  max_tool_calls : Nat
deriving DecidableEq

/-- The external collaborators of one `process_message` invocation.

* `setup` — `get_config()` / `get_openai_client()` /
  `resolve_chat_runtime(cfg)`, all executed before the `try:` block; a
  fault here is a Python exception escaping `process_message`.
* `llm k` — the `k`-th `client.chat.completions.create(...)` round trip.
* `exec i name args` — the capability invocation performed by the tool
  call with 0-based execution index `i` (the value of `tool_call_count`
  before its increment for that call); indexing by `i` lets two
  executions of identical arguments behave differently, as in reality.
* `execDur i` — the measured wall-clock duration of that invocation.
* `dumps` — `json.dumps(result, default=str)`.
* `system_prompt` — `build_system_prompt()`. -/
structure LoopEnv where
  setup : Except String AgentCfg
  llm : Nat → Except String LLMResponse
  exec : Nat → String → Args → Except String ToolResult
  execDur : Nat → Nat
  dumps : ToolResult → String
  system_prompt : String

/-- The keys of `TOOL_DISPATCH`. The capabilities themselves are
collaborators, reached through `LoopEnv.exec`. -/
def TOOL_DISPATCH : List String := ["search", "scrape_page", "download_file"]

/-- `TOOL_DISPATCH.get(fn_name) is None`? -/
def knownTool (name : String) : Bool := TOOL_DISPATCH.contains name

/-- The dedup key of a download call:
`(str(fn_args.get("url", "")), str(fn_args.get("filename", "")).casefold())`. -/
def dedupKey (args : Args) : String × String := (args.url, casefold args.filename)

/-- The annotation text of a deduplicated result. -/
def dedupReasonMsg : String :=
  "Skipped duplicate download_file call for identical url+filename."

/-- Python dict lookup on the run-scoped download cache (keys are never
inserted twice, so an association list searched front-first is exact). -/
def lookupCache : List ((String × String) × ToolResult) → String × String →
    Option ToolResult
  | [], _ => none
  | (k, v) :: rest, key => if k = key then some v else lookupCache rest key

/-- The loop-local mutable state of one `process_message` invocation,
together with `execLog`, a ghost record of the capability invocations
actually performed (execution index, tool name, arguments); `execLog` is
observation only — no branch of the loop reads it. -/
structure LoopState where
  tool_call_count : Nat
  download_cache : List ((String × String) × ToolResult)
  emitted_file_names : List String
  execLog : List (Nat × String × Args)
  conv : Conversation

/-- The tail every executed tool call runs through (source order):
`add_tool_activity`, the successful-download policy (verification warning
as a system Message, else a file Message gated by the emitted-file set),
then the tool-role transcript entry with the truncated serialized result. -/
def afterExec (env : LoopEnv) (st : LoopState) (tc : ToolCall) (result : ToolResult)
    (duration_ms : Nat) : LoopState :=
  let conv := st.conv.add_tool_activity tc.name tc.args result duration_ms
  let (conv, emitted) :=
    if tc.name = "download_file" ∧ result.success = true ∧ result.deduplicated = false then
      match verify_download result with
      | some w => (conv.add_system_message w, st.emitted_file_names)
      | none =>
          let fileKey := casefold result.filename
          if fileKey ∈ st.emitted_file_names then (conv, st.emitted_file_names)
          else (conv.add_file_message result.filename result.path result.size_bytes,
                fileKey :: st.emitted_file_names)
    else (conv, st.emitted_file_names)
  let conv := { conv with
    openai_messages := conv.openai_messages
      ++ [.tool tc.id (truncateResult (env.dumps result))] }
  { st with tool_call_count := st.tool_call_count + 1, conv := conv,
            emitted_file_names := emitted }

/-- One iteration of `for tc in assistant_msg.tool_calls`. A `.error`
carries the Python exception text together with the state at the moment
it was raised (the count was already incremented; nothing was appended
for the faulting call). -/
def execOneCall (env : LoopEnv) (st : LoopState) (tc : ToolCall) :
    Except (String × LoopState) LoopState :=
  let i := st.tool_call_count
  if knownTool tc.name = false then
    .ok (afterExec env st tc { error := "Unknown tool: " ++ tc.name } 0)
  else if tc.name = "download_file" then
    match lookupCache st.download_cache (dedupKey tc.args) with
    | some cached =>
        .ok (afterExec env st tc
          { cached with deduplicated := true, dedupReason := dedupReasonMsg } 0)
    | none =>
        match env.exec i tc.name tc.args with
        | .error e =>
            .error (e, { st with tool_call_count := i + 1,
                                 execLog := st.execLog ++ [(i, tc.name, tc.args)] })
        | .ok result =>
            let cache' :=
              if result.success then (dedupKey tc.args, result) :: st.download_cache
              else st.download_cache
            let st := { st with execLog := st.execLog ++ [(i, tc.name, tc.args)],
                                download_cache := cache' }
            .ok (afterExec env st tc result (env.execDur i))
  else
    match env.exec i tc.name tc.args with
    | .error e =>
        .error (e, { st with tool_call_count := i + 1,
                             execLog := st.execLog ++ [(i, tc.name, tc.args)] })
    | .ok result => .ok (afterExec env st tc result (env.execDur i))

/-- The whole `for` loop over one response's tool calls, stopping at the
first fault. -/
def execBatch (env : LoopEnv) (st : LoopState) :
    List ToolCall → Except (String × LoopState) LoopState
  | [] => .ok st
  | tc :: rest =>
      match execOneCall env st tc with
      | .error e => .error e
      | .ok st' => execBatch env st' rest

/-- How one invocation of the `while` loop ended. -/
inductive LoopOutcome where
  | finalText
  | budgetExceeded
  | fault (e : String)
  | outOfFuel
deriving DecidableEq

/-- The no-tool-calls `break`: the response text becomes the final
answer as an assistant Message and a matching assistant transcript
entry. -/
def finalTextState (st : LoopState) (resp : LLMResponse) : LoopState :=
  let text := resp.content
  let conv := st.conv.add_assistant_message text
  let conv := { conv with openai_messages := conv.openai_messages ++ [.assistant text] }
  { st with conv := conv }

/-- The conversation updates performed when a response carries tool
calls, before the batch executes: append the raw assistant transcript
entry (with its tool-call records), and surface any prose as an
assistant Message. -/
def batchStart (st : LoopState) (resp : LLMResponse) : LoopState :=
  let conv := { st.conv with
    openai_messages := st.conv.openai_messages
      ++ [.assistantToolCalls resp.content resp.tool_calls] }
  let conv :=
    if resp.content.isEmpty then conv
    else conv.add_assistant_message resp.content
  { st with conv := conv }

/-- The budget-exhaustion system Message (the `while` loop's `else`
clause). -/
def budgetState (cfg : AgentCfg) (st : LoopState) : LoopState :=
  let note := "Reached maximum of " ++ toString cfg.max_tool_calls
    ++ " tool calls. Stopping."
  { st with conv := st.conv.add_system_message note }

/-- The `while tool_call_count < max_calls` loop, `k` being the index of
the next LLM round trip. `fuel` bounds the remaining iterations only to
make the recursion structural: `process_message` supplies
`max_tool_calls + 1`, which `loopGo_no_outOfFuel` proves sufficient
(every non-final iteration executes a non-empty batch, so at most
`max_tool_calls` iterations run before the condition fails). -/
def loopGo (env : LoopEnv) (cfg : AgentCfg) :
    Nat → Nat → LoopState → LoopState × LoopOutcome
  | 0, _, st => (st, .outOfFuel)
  | fuel + 1, k, st =>
    if st.tool_call_count < cfg.max_tool_calls then
      match env.llm k with
      | .error e => (st, .fault e)
      | .ok resp =>
        if resp.tool_calls.isEmpty then
          (finalTextState st resp, .finalText)
        else
          match execBatch env (batchStart st resp) resp.tool_calls with
          | .error (e, st') => (st', .fault e)
          | .ok st' => loopGo env cfg fuel (k + 1) st'
    else
      (budgetState cfg st, .budgetExceeded)

/-- `if not conversation.openai_messages or
conversation.openai_messages[0].get("role") != "system": insert(0, ...)`. -/
def insertSystemPrompt (env : LoopEnv) (c : Conversation) : Conversation :=
  match c.openai_messages with
  | [] => { c with openai_messages := [.system env.system_prompt] }
  | m :: _ =>
      if m.role = "system" then c
      else { c with openai_messages := .system env.system_prompt :: c.openai_messages }

/-- The loop-local state at the top of the `try:` block. -/
def initState (conv : Conversation) : LoopState :=
  { tool_call_count := 0, download_cache := [], emitted_file_names := [],
    execLog := [], conv := conv }

/-- How one `process_message` invocation ended, seen by its caller. -/
inductive RunOutcome where
  | finalText
  | budgetExceeded
  | caughtError (e : String)
  | outOfFuel
deriving DecidableEq

/-- `process_message`. Configuration/client/runtime resolution and the
system-prompt insertion run before the `try:` block, so a fault in
`setup` escapes as `.error` (a Python exception propagating to the
caller, the conversation untouched). Everything inside the `while` loop
is covered by the `except` clause, which appends `Error: {exc}` as a
system Message and returns normally. (`process_message_ne_outOfFuel`
shows the `.outOfFuel` arm is unreachable.) -/
def process_message (env : LoopEnv) (conv : Conversation) :
    Except (String × Conversation) (LoopState × RunOutcome) :=
  match env.setup with
  | .error e => .error (e, conv)
  | .ok cfg =>
    let conv := insertSystemPrompt env conv
    match loopGo env cfg (cfg.max_tool_calls + 1) 0 (initState conv) with
    | (st, .finalText) => .ok (st, .finalText)
    | (st, .budgetExceeded) => .ok (st, .budgetExceeded)
    | (st, .fault e) =>
        .ok ({ st with conv := st.conv.add_system_message ("Error: " ++ e) },
             .caughtError e)
    | (st, .outOfFuel) => .ok (st, .outOfFuel)

/-- The conversation as the caller of `process_message` observes it
afterwards, whether the invocation returned or raised. -/
def runConv (r : Except (String × Conversation) (LoopState × RunOutcome)) :
    Conversation :=
  match r with
  | .ok (st, _) => st.conv
  | .error (_, c) => c

/-- The final loop-local state, when the invocation returned normally. -/
def runState (r : Except (String × Conversation) (LoopState × RunOutcome)) :
    Option LoopState :=
  match r with
  | .ok (st, _) => some st
  | .error _ => none

/-- The final `tool_call_count`, when the invocation returned normally. -/
def finalCount (r : Except (String × Conversation) (LoopState × RunOutcome)) :
    Option Nat :=
  (runState r).map LoopState.tool_call_count

/-- The loop-local state reached by a (possibly faulting) step. -/
def stateOf : Except (String × LoopState) LoopState → LoopState
  | .ok st => st
  | .error (_, st) => st

/-- The final executed-call count stays within `n` whenever the
invocation returned normally. -/
def finalCountLE (r : Except (String × Conversation) (LoopState × RunOutcome))
    (n : Nat) : Prop :=
  ∀ st, runState r = some st → st.tool_call_count ≤ n

/-- A file Message announcing a file whose case-folded name is `key`. -/
def isFileKeyMsg (key : String) (m : ChatMessage) : Bool :=
  m.role == "file" && casefold (m.filename.getD "") == key

/-- A tool_activity Message recording a successful, non-deduplicated,
warning-free `download_file` result whose case-folded filename is `key` —
exactly the results the loop's file policy considers for announcement. -/
def qualifyingDownload (key : String) (m : ChatMessage) : Bool :=
  m.role == "tool_activity" && m.tool_name == some "download_file" &&
    (match m.tool_result with
     | some r =>
        r.success && !r.deduplicated && (verify_download r).isNone
          && (casefold r.filename == key)
     | none => false)

/-- Every result stored in the run-scoped download cache reports
success. -/
def CacheOK (st : LoopState) : Prop :=
  ∀ k r, lookupCache st.download_cache k = some r → r.success = true

/-- A Message never records a dedup-annotated failure: whenever its tool
result carries `deduplicated=true`, that result also carries
`success=true`. -/
def dedupImpliesSuccess (m : ChatMessage) : Prop :=
  ∀ r, m.tool_result = some r → r.deduplicated = true → r.success = true

/-- The per-run relation between the emitted-file set and the Messages
appended since the run began: a case-folded name is in the set exactly
when a qualifying (successful, non-deduplicated, warning-free) download
activity has been recorded for it, and each key has produced exactly one
file Message iff it is in the set. -/
def FileInv (base : List ChatMessage) (st : LoopState) : Prop :=
  ∃ δ, st.conv.messages = base ++ δ ∧
    ∀ key, ((key ∈ st.emitted_file_names) ↔ δ.any (qualifyingDownload key) = true) ∧
      δ.countP (isFileKeyMsg key) = (if key ∈ st.emitted_file_names then 1 else 0)

/-- The run invariant behind C9: the cache holds only successes, and no
Message appended since the run began records a dedup-annotated
failure. -/
def Inv9 (base : List ChatMessage) (st : LoopState) : Prop :=
  CacheOK st ∧ ∃ δ, st.conv.messages = base ++ δ ∧ ∀ m ∈ δ, dedupImpliesSuccess m

/-! ## Definitions used to settle C7 (append operations on a Conversation) -/

/-- One application of a `Conversation.add_*` method. -/
inductive AppendOp where
  | user (content : String)
  | assistant (content : String)
  | toolActivity (tool_name : String) (args : Args) (result : ToolResult)
      (duration_ms : Nat)
  | file (filename path : String) (size : Nat)
  | system (content : String)

def applyOp (c : Conversation) : AppendOp → Conversation
  | .user s => c.add_user_message s
  | .assistant s => c.add_assistant_message s
  | .toolActivity n a r d => c.add_tool_activity n a r d
  | .file f p s => c.add_file_message f p s
  | .system s => c.add_system_message s

def applyOps (c : Conversation) (ops : List AppendOp) : Conversation :=
  ops.foldl applyOp c

/-- The one Message each append operation appends. -/
def opMessage : AppendOp → ChatMessage
  | .user s => { role := "user", content := s }
  | .assistant s => { role := "assistant", content := s }
  | .toolActivity n a r d => Conversation.mkToolActivity n a r d
  | .file f p s => Conversation.mkFileMessage f p s
  | .system s => { role := "system", content := s }

/-! ## Concrete environments for counterexamples and witnesses -/

/-- A capability that always succeeds with a comfortably large file. -/
def okDownloadExec : Nat → String → Args → Except String ToolResult :=
  fun _ _ args =>
    .ok { success := true, filename := args.filename,
          path := "downloads/" ++ args.filename, size_bytes := 120000 }

/-- A capability that always fails with an error-shaped result. -/
def failDownloadExec : Nat → String → Args → Except String ToolResult :=
  fun _ _ _ => .ok { success := false, error := "Download error: network error" }

/-- An LLM script: the listed responses, then a final text turn forever. -/
def scriptLLM (script : List LLMResponse) : Nat → Except String LLMResponse :=
  fun k => .ok ((script.drop k).headD { content := "done" })

/-- Budget 1, but the first response carries two tool calls in one batch. -/
def cfgC1 : AgentCfg := ⟨1⟩

def envC1 : LoopEnv :=
  { setup := .ok cfgC1,
    llm := scriptLLM [{ content := "", tool_calls :=
      [⟨"call_1", "download_file", ⟨"https://a.example/one.pdf", "one.pdf"⟩⟩,
       ⟨"call_2", "download_file", ⟨"https://b.example/two.pdf", "two.pdf"⟩⟩] }],
    exec := okDownloadExec, execDur := fun _ => 5, dumps := fun _ => "{}",
    system_prompt := "system prompt" }

/-- Budget 2, single-call batches only. -/
def cfgW1 : AgentCfg := ⟨2⟩

def envW1 : LoopEnv :=
  { setup := .ok cfgW1, llm := scriptLLM [],
    exec := okDownloadExec, execDur := fun _ => 5, dumps := fun _ => "{}",
    system_prompt := "system prompt" }

/-- Budget 5; the model asks for the same download twice (identical url
and filename, hence identical dedup key), and the capability fails. -/
def envC2 : LoopEnv :=
  { setup := .ok ⟨5⟩,
    llm := scriptLLM [{ content := "", tool_calls :=
      [⟨"call_1", "download_file", ⟨"https://x.example/q4.pdf", "q4.pdf"⟩⟩,
       ⟨"call_2", "download_file", ⟨"https://x.example/q4.pdf", "q4.pdf"⟩⟩] }],
    exec := failDownloadExec, execDur := fun _ => 7, dumps := fun _ => "{}",
    system_prompt := "system prompt" }

/-- A successful result sitting in the dedup cache. -/
def cachedW2 : ToolResult :=
  { success := true, filename := "Report.PDF", path := "downloads/Report.PDF",
    size_bytes := 120000 }

def tcW2 : ToolCall :=
  ⟨"call_9", "download_file", ⟨"https://x.example/Report.PDF", "report.pdf"⟩⟩

/-- A loop state whose cache already holds `tcW2`'s dedup key. -/
def stW2 : LoopState :=
  { initState {} with download_cache := [(dedupKey tcW2.args, cachedW2)] }

def envW2 : LoopEnv :=
  { setup := .ok ⟨5⟩, llm := scriptLLM [], exec := failDownloadExec,
    execDur := fun _ => 7, dumps := fun _ => "{}", system_prompt := "system prompt" }

/-- Configuration resolution itself raises. -/
def envC3 : LoopEnv :=
  { setup := .error "config resolution failed",
    llm := scriptLLM [], exec := okDownloadExec, execDur := fun _ => 5,
    dumps := fun _ => "{}", system_prompt := "system prompt" }

/-- Setup succeeds but the first LLM round trip raises. -/
def envW3 : LoopEnv :=
  { setup := .ok ⟨5⟩, llm := fun _ => .error "boom",
    exec := okDownloadExec, execDur := fun _ => 5, dumps := fun _ => "{}",
    system_prompt := "system prompt" }

/-- A 50-byte `small.pdf`: well under the 20,000-byte PDF floor. -/
def envW4 : LoopEnv :=
  { setup := .ok ⟨5⟩, llm := scriptLLM [],
    exec := fun _ _ args =>
      .ok { success := true, filename := args.filename,
            path := "downloads/" ++ args.filename, size_bytes := 50 },
    execDur := fun _ => 5, dumps := fun _ => "{}", system_prompt := "system prompt" }

def tcW4 : ToolCall :=
  ⟨"call_1", "download_file", ⟨"https://x.example/small.pdf", "small.pdf"⟩⟩

/-- Budget 5; two different URLs resolving to the same filename (up to
case), both succeeding and warning-free. -/
def envW5 : LoopEnv :=
  { setup := .ok ⟨5⟩,
    llm := scriptLLM [{ content := "", tool_calls :=
      [⟨"call_1", "download_file", ⟨"https://a.example/Suppq425.pdf", "Suppq425.pdf"⟩⟩,
       ⟨"call_2", "download_file", ⟨"https://b.example/Suppq425.pdf", "suppq425.PDF"⟩⟩] }],
    exec := okDownloadExec, execDur := fun _ => 5, dumps := fun _ => "{}",
    system_prompt := "system prompt" }

def envW6 : LoopEnv :=
  { setup := .ok ⟨5⟩, llm := scriptLLM [], exec := okDownloadExec,
    execDur := fun _ => 5, dumps := fun _ => "{}", system_prompt := "system prompt" }

/-- A tool call whose name is in no registry. -/
def tcW6 : ToolCall := ⟨"call_1", "frobnicate", ⟨"", ""⟩⟩

/-- A conversation with one existing message, for the C7 witness. -/
def convW7 : Conversation := Conversation.add_user_message {} "hello"

def opsW7 : List AppendOp := [.assistant "hi there", .system "note"]

/-- A serializer whose output exceeds the 15,000-character ceiling. -/
def envW8 : LoopEnv :=
  { setup := .ok ⟨5⟩, llm := scriptLLM [], exec := okDownloadExec,
    execDur := fun _ => 5,
    dumps := fun _ => String.mk (List.replicate 15001 'x'),
    system_prompt := "system prompt" }

def tcW8 : ToolCall := ⟨"call_8", "search", ⟨"", ""⟩⟩

/-- First download fails, second (identical) succeeds: exercises
re-execution after an uncached failure. -/
def envW9 : LoopEnv :=
  { setup := .ok ⟨5⟩,
    llm := scriptLLM [{ content := "", tool_calls :=
      [⟨"call_1", "download_file", ⟨"https://x.example/q4.pdf", "q4.pdf"⟩⟩,
       ⟨"call_2", "download_file", ⟨"https://x.example/q4.pdf", "q4.pdf"⟩⟩,
       ⟨"call_3", "download_file", ⟨"https://x.example/q4.pdf", "q4.pdf"⟩⟩] }],
    exec := fun i _ args =>
      if i = 0 then .ok { success := false, error := "Download error: timeout" }
      else .ok { success := true, filename := args.filename,
                 path := "downloads/" ++ args.filename, size_bytes := 120000 },
    execDur := fun _ => 7, dumps := fun _ => "{}", system_prompt := "system prompt" }

def envW10 : LoopEnv :=
  { setup := .ok ⟨5⟩, llm := scriptLLM [],
    exec := fun i _ args =>
      if i = 0 then
        .ok { success := true, filename := args.filename,
              path := "downloads/" ++ args.filename, size_bytes := 50 }
      else
        .ok { success := true, filename := args.filename,
              path := "downloads/" ++ args.filename, size_bytes := 120000 },
    execDur := fun _ => 5, dumps := fun _ => "{}", system_prompt := "system prompt" }

def tcW10a : ToolCall :=
  ⟨"call_1", "download_file", ⟨"https://a.example/r.pdf", "r.pdf"⟩⟩

def tcW10b : ToolCall :=
  ⟨"call_2", "download_file", ⟨"https://b.example/r.pdf", "R.PDF"⟩⟩

/-- Successful 50-byte result of `tcW10a` (triggers the size warning). -/
def rW10a : ToolResult :=
  { success := true, filename := "r.pdf", path := "downloads/r.pdf", size_bytes := 50 }

/-- Successful large result of `tcW10b` (warning-free). -/
def rW10b : ToolResult :=
  { success := true, filename := "R.PDF", path := "downloads/R.PDF",
    size_bytes := 120000 }

/-! ## Basic lemmas about the step functions -/

theorem afterExec_count (env : LoopEnv) (st : LoopState) (tc : ToolCall)
    (r : ToolResult) (d : Nat) :
    (afterExec env st tc r d).tool_call_count = st.tool_call_count + 1 := rfl

/-- Every iteration of the `for` loop increments `tool_call_count` by
exactly one, whether it returns or raises. -/
theorem execOneCall_count (env : LoopEnv) (st : LoopState) (tc : ToolCall) :
    (stateOf (execOneCall env st tc)).tool_call_count = st.tool_call_count + 1 := by
  unfold execOneCall
  by_cases hn : tc.name = "download_file"
  · simp only [hn]
    rw [if_neg (by decide : ¬(knownTool "download_file" = false))]
    simp only [if_true]
    cases hl : lookupCache st.download_cache (dedupKey tc.args) with
    | some cached => simp [hl, stateOf, afterExec_count]
    | none =>
        simp only [hl]
        cases hx : env.exec st.tool_call_count "download_file" tc.args with
        | error e => simp [hx, stateOf]
        | ok result => simp [hx, stateOf, afterExec_count]
  · by_cases hk : knownTool tc.name = false
    · rw [if_pos hk]; simp [stateOf, afterExec_count]
    · rw [if_neg hk, if_neg hn]
      cases hx : env.exec st.tool_call_count tc.name tc.args with
      | error e => simp [hx, stateOf]
      | ok result => simp [hx, stateOf, afterExec_count]

theorem execBatch_count_ok (env : LoopEnv) :
    ∀ (calls : List ToolCall) (st st' : LoopState),
      execBatch env st calls = .ok st' →
      st'.tool_call_count = st.tool_call_count + calls.length := by
  intro calls
  induction calls with
  | nil => intro st st' h; cases h; simp
  | cons tc rest ih =>
      intro st st' h
      unfold execBatch at h
      match hc : execOneCall env st tc with
      | .error e => rw [hc] at h; cases h
      | .ok st₁ =>
          rw [hc] at h
          have hcount := execOneCall_count env st tc
          rw [hc] at hcount
          have := ih st₁ st' h
          simp [stateOf] at hcount
          simp [this, hcount]
          omega

theorem execBatch_count_error (env : LoopEnv) :
    ∀ (calls : List ToolCall) (st : LoopState) (e : String) (st' : LoopState),
      execBatch env st calls = .error (e, st') →
      st'.tool_call_count ≤ st.tool_call_count + calls.length := by
  intro calls
  induction calls with
  | nil => intro st e st' h; cases h
  | cons tc rest ih =>
      intro st e st' h
      unfold execBatch at h
      match hc : execOneCall env st tc with
      | .error (e₁, st₁) =>
          rw [hc] at h
          cases h
          have hcount := execOneCall_count env st tc
          rw [hc] at hcount
          simp [stateOf] at hcount
          simp [hcount]
      | .ok st₁ =>
          rw [hc] at h
          have hcount := execOneCall_count env st tc
          rw [hc] at hcount
          simp [stateOf] at hcount
          have := ih st₁ e st' h
          simp at this ⊢
          omega

theorem batchStart_count (st : LoopState) (resp : LLMResponse) :
    (batchStart st resp).tool_call_count = st.tool_call_count := by
  unfold batchStart
  split <;> rfl

/-- With fuel exceeding the remaining budget, the `while` loop always
reaches one of its real outcomes: the fuel parameter is an artifact of
the embedding, not a semantic bound. -/
theorem loopGo_no_outOfFuel (env : LoopEnv) (cfg : AgentCfg) :
    ∀ (fuel k : Nat) (st : LoopState),
      cfg.max_tool_calls - st.tool_call_count < fuel →
      (loopGo env cfg fuel k st).2 ≠ .outOfFuel := by
  intro fuel
  induction fuel with
  | zero => intro k st h; omega
  | succ n ih =>
      intro k st h
      unfold loopGo
      by_cases hlt : st.tool_call_count < cfg.max_tool_calls
      · rw [if_pos hlt]
        cases hr : env.llm k with
        | error e => simp
        | ok resp =>
            by_cases hne : resp.tool_calls.isEmpty
            · simp [hne]
            · simp only [hne, if_false, Bool.false_eq_true]
              cases hb : execBatch env (batchStart st resp) resp.tool_calls with
              | error p =>
                  match p with
                  | (e, st') => simp
              | ok st' =>
                  simp only
                  apply ih
                  have hlen : resp.tool_calls.length ≠ 0 := by
                    intro hz
                    exact hne (by simp [List.isEmpty_iff, List.length_eq_zero.mp hz])
                  have hc := execBatch_count_ok env resp.tool_calls _ st' hb
                  rw [batchStart_count] at hc
                  omega
      · rw [if_neg hlt]; simp

/-- `process_message` never reports the artificial fuel outcome. -/
theorem process_message_ne_outOfFuel (env : LoopEnv) (conv : Conversation)
    (st : LoopState) :
    process_message env conv ≠ .ok (st, RunOutcome.outOfFuel) := by
  unfold process_message
  match hs : env.setup with
  | .error e => simp
  | .ok cfg =>
      simp only
      have h := loopGo_no_outOfFuel env cfg (cfg.max_tool_calls + 1) 0
        (initState (insertSystemPrompt env conv)) (by simp [initState])
      match hr : loopGo env cfg (cfg.max_tool_calls + 1) 0
          (initState (insertSystemPrompt env conv)) with
      | (st', .finalText) => simp
      | (st', .budgetExceeded) => simp
      | (st', .fault e) => simp
      | (st', .outOfFuel) => rw [hr] at h; simp at h

theorem finalTextState_count (st : LoopState) (resp : LLMResponse) :
    (finalTextState st resp).tool_call_count = st.tool_call_count := rfl

theorem budgetState_count (cfg : AgentCfg) (st : LoopState) :
    (budgetState cfg st).tool_call_count = st.tool_call_count := rfl

/-- The `while` loop preserves any executed-call bound of the shape
`max_tool_calls - 1 + B` when every response carries at most `B` tool
calls: a batch only starts below the budget, and adds at most `B`. -/
theorem loopGo_count_le (env : LoopEnv) (cfg : AgentCfg) (B : Nat)
    (hB : ∀ k r, env.llm k = .ok r → r.tool_calls.length ≤ B) :
    ∀ (fuel k : Nat) (st : LoopState),
      st.tool_call_count ≤ cfg.max_tool_calls - 1 + B →
      ((loopGo env cfg fuel k st).1).tool_call_count ≤ cfg.max_tool_calls - 1 + B := by
  intro fuel
  induction fuel with
  | zero => intro k st h; exact h
  | succ n ih =>
      intro k st h
      unfold loopGo
      by_cases hlt : st.tool_call_count < cfg.max_tool_calls
      · rw [if_pos hlt]
        cases hr : env.llm k with
        | error e => exact h
        | ok resp =>
            by_cases hne : resp.tool_calls.isEmpty
            · simp [hne, finalTextState_count, h]
            · simp only [hne, if_false, Bool.false_eq_true]
              have hlen := hB k resp hr
              cases hb : execBatch env (batchStart st resp) resp.tool_calls with
              | error p =>
                  match p with
                  | (e, st') =>
                      simp only
                      have := execBatch_count_error env resp.tool_calls _ e st' hb
                      rw [batchStart_count] at this
                      omega
              | ok st' =>
                  simp only
                  apply ih
                  have := execBatch_count_ok env resp.tool_calls _ st' hb
                  rw [batchStart_count] at this
                  omega
      · rw [if_neg hlt]
        simpa [budgetState_count] using h

/-- C1: FAILS as stated — the budget is only checked between LLM round
trips, so a single response carrying several tool calls is executed
whole. With budget 1 and one response carrying two download calls, both
calls are executed (count 2, two capability invocations), and the loop
then stops with the budget-exceeded outcome. -/
theorem C1_counterexample :
    finalCount (process_message envC1 ({} : Conversation)) = some 2 ∧
    cfgC1.max_tool_calls = 1 ∧
    (runState (process_message envC1 ({} : Conversation))).map
      (fun st => st.execLog.length) = some 2 := ⟨rfl, rfl, rfl⟩

/-- C1 (amended): the number of executed tool calls never exceeds
`max_tool_calls - 1 + B`, where `B` bounds the number of tool calls any
single LLM response carries; in particular, with single-call batches the
budget itself is never exceeded. -/
theorem C1_budget_overshoot_bound (env : LoopEnv) (conv : Conversation)
    (cfg : AgentCfg) (B : Nat)
    (hcfg : env.setup = .ok cfg)
    (hB : ∀ k r, env.llm k = .ok r → r.tool_calls.length ≤ B) :
    finalCountLE (process_message env conv) (cfg.max_tool_calls - 1 + B) := by
  intro st hst
  unfold process_message at hst
  rw [hcfg] at hst
  simp only at hst
  have base := loopGo_count_le env cfg B hB (cfg.max_tool_calls + 1) 0
    (initState (insertSystemPrompt env conv)) (by simp [initState])
  match hr : loopGo env cfg (cfg.max_tool_calls + 1) 0
      (initState (insertSystemPrompt env conv)) with
  | (st', o) =>
      rw [hr] at hst base
      match o with
      | .finalText => simp [runState] at hst; subst hst; exact base
      | .budgetExceeded => simp [runState] at hst; subst hst; exact base
      | .fault e => simp [runState] at hst; subst hst; exact base
      | .outOfFuel => simp [runState] at hst; subst hst; exact base

/-- Witness for `C1_budget_overshoot_bound` at budget 2 with single-call
batches. -/
theorem C1_budget_overshoot_bound_witness :
    finalCountLE (process_message envW1 ({} : Conversation))
      (cfgW1.max_tool_calls - 1 + 1) :=
  C1_budget_overshoot_bound envW1 {} cfgW1 1 rfl
    (fun k r h => by
      simp [envW1, scriptLLM] at h
      subst h
      simp)

/-- C3: FAILS as stated — configuration/client/runtime resolution runs
before the `try:` block (`loop.py` lines 38–40 against the `try` at line
63), so a fault raised there propagates out of `process_message` and no
system Message describing it is appended. -/
theorem C3_counterexample :
    process_message envC3 ({} : Conversation) =
      .error ("config resolution failed", ({} : Conversation)) ∧
    (runConv (process_message envC3 ({} : Conversation))).messages = [] :=
  ⟨rfl, rfl⟩

/-- C3 (amended): a fault raised during setup (configuration, client and
runtime resolution, before the `try:` block) propagates to the caller
with the conversation untouched; once setup succeeded, the invocation
always returns normally, and a fault raised anywhere inside the loop is
caught exactly once, appending a system Message `Error: {exc}` to the
state reached at the moment of the fault. -/
theorem C3_fault_handling (env : LoopEnv) (conv : Conversation) :
    (∀ e, env.setup = .error e → process_message env conv = .error (e, conv)) ∧
    (∀ cfg, env.setup = .ok cfg → ∃ out, process_message env conv = .ok out) ∧
    (∀ cfg, env.setup = .ok cfg →
      ∀ st e, loopGo env cfg (cfg.max_tool_calls + 1) 0
          (initState (insertSystemPrompt env conv)) = (st, .fault e) →
        process_message env conv =
          .ok ({ st with conv := st.conv.add_system_message ("Error: " ++ e) },
               .caughtError e)) := by
  refine ⟨?_, ?_, ?_⟩
  · intro e he
    unfold process_message
    rw [he]
  · intro cfg hcfg
    unfold process_message
    rw [hcfg]
    simp only
    match hr : loopGo env cfg (cfg.max_tool_calls + 1) 0
        (initState (insertSystemPrompt env conv)) with
    | (st, .finalText) => exact ⟨_, rfl⟩
    | (st, .budgetExceeded) => exact ⟨_, rfl⟩
    | (st, .fault e) => exact ⟨_, rfl⟩
    | (st, .outOfFuel) => exact ⟨_, rfl⟩
  · intro cfg hcfg st e hr
    unfold process_message
    rw [hcfg]
    simp only
    rw [hr]

/-- Witness for `C3_fault_handling`: the first LLM round trip raises,
the fault is caught, and the invocation returns normally. -/
theorem C3_fault_handling_witness :
    ∃ out, process_message envW3 ({} : Conversation) = .ok out :=
  (C3_fault_handling envW3 {}).2.1 ⟨5⟩ rfl

/-- C6: a tool call whose name is not in the registry invokes no
capability (the ghost execution log is unchanged), yields the synthetic
error-shaped result with recorded duration 0, still increments the
executed-call counter, and the batch continues with the remaining calls
instead of terminating. -/
theorem C6_unknown_tool (env : LoopEnv) (st : LoopState) (tc : ToolCall)
    (h : knownTool tc.name = false) :
    ∃ st', execOneCall env st tc = .ok st' ∧
      st'.tool_call_count = st.tool_call_count + 1 ∧
      st'.execLog = st.execLog ∧
      st'.download_cache = st.download_cache ∧
      st'.emitted_file_names = st.emitted_file_names ∧
      st'.conv.messages = st.conv.messages ++
        [Conversation.mkToolActivity tc.name tc.args
          { error := "Unknown tool: " ++ tc.name } 0] ∧
      st'.conv.openai_messages = st.conv.openai_messages ++
        [.tool tc.id (truncateResult (env.dumps
          { error := "Unknown tool: " ++ tc.name }))] ∧
      (∀ rest, execBatch env st (tc :: rest) = execBatch env st' rest) := by
  have hn : tc.name ≠ "download_file" := by
    intro hc
    rw [hc] at h
    exact absurd h (by decide)
  have hstep : execOneCall env st tc =
      .ok (afterExec env st tc { error := "Unknown tool: " ++ tc.name } 0) := by
    unfold execOneCall
    rw [if_pos h]
  refine ⟨_, hstep, rfl, rfl, rfl, ?_, ?_, ?_, ?_⟩
  · simp [afterExec, hn]
  · simp [afterExec, hn, Conversation.add_tool_activity]
  · simp [afterExec, hn, Conversation.add_tool_activity]
  · intro rest
    simp only [execBatch, hstep]

/-- Witness for `C6_unknown_tool` on the unregistered tool name
`frobnicate`. -/
theorem C6_unknown_tool_witness :
    knownTool tcW6.name = false ∧
    ∃ st', execOneCall envW6 (initState ({} : Conversation)) tcW6 = .ok st' ∧
      st'.tool_call_count = 1 ∧ st'.execLog = [] := by
  refine ⟨by decide, ?_⟩
  obtain ⟨st', h1, h2, h3, -, -, -, -, -⟩ :=
    C6_unknown_tool envW6 (initState {}) tcW6 (by decide)
  exact ⟨st', h1, by simpa [initState] using h2, by simpa [initState] using h3⟩

theorem applyOp_messages (c : Conversation) (op : AppendOp) :
    (applyOp c op).messages = c.messages ++ [opMessage op] := by
  cases op <;> rfl

theorem applyOps_messages (c : Conversation) (ops : List AppendOp) :
    (applyOps c ops).messages = c.messages ++ ops.map opMessage := by
  induction ops generalizing c with
  | nil => simp [applyOps]
  | cons op rest ih =>
      show (applyOps (applyOp c op) rest).messages = _
      rw [ih (applyOp c op), applyOp_messages]
      simp

/-- C7: FAILS as stated for an index beyond the current message count:
on an empty conversation, `get_messages_since 1` returns the empty list
both before and after one append — zero additional entries where the
claim demands exactly one. -/
theorem C7_counterexample :
    (({} : Conversation).add_user_message "hi").messages.length =
      ({} : Conversation).messages.length + 1 ∧
    (({} : Conversation).add_user_message "hi").get_messages_since 1 =
      ({} : Conversation).get_messages_since 1 := ⟨rfl, rfl⟩

/-- C7 (amended): for every index `0 ≤ k ≤` the current message count,
`get_messages_since k` after `N` further appends returns the previous
sequence extended by exactly the `N` new serialized entries (it is a pure
read, so repeated calls without appends trivially agree). -/
theorem C7_messages_since_append (conv : Conversation) (ops : List AppendOp)
    (k : Int) (h0 : 0 ≤ k) (hk : k.toNat ≤ conv.messages.length) :
    (applyOps conv ops).get_messages_since k =
      conv.get_messages_since k ++ ops.map (fun op => (opMessage op).to_dict) ∧
    ((applyOps conv ops).get_messages_since k).length =
      (conv.get_messages_since k).length + ops.length := by
  have h1 : (applyOps conv ops).get_messages_since k =
      conv.get_messages_since k ++ ops.map (fun op => (opMessage op).to_dict) := by
    unfold Conversation.get_messages_since pySuffixFrom
    rw [if_pos h0, if_pos h0, applyOps_messages,
        List.drop_append_of_le_length hk, List.map_append, List.map_map]
    rfl
  exact ⟨h1, by rw [h1]; simp⟩

/-- Witness for `C7_messages_since_append`: one existing message, two
appends, index 1. -/
theorem C7_messages_since_append_witness :
    (applyOps convW7 opsW7).get_messages_since 1 =
      convW7.get_messages_since 1 ++ opsW7.map (fun op => (opMessage op).to_dict) ∧
    ((applyOps convW7 opsW7).get_messages_since 1).length =
      (convW7.get_messages_since 1).length + opsW7.length :=
  C7_messages_since_append convW7 opsW7 1 (by decide) (by decide)

/-- Every executed call's common tail: the tool_activity Message comes
first, possibly followed by one policy Message, and the transcript gains
(at most one system-check entry and) the tool-role entry carrying the
truncated serialized result, tagged with the call's identifier. -/
theorem afterExec_spec (env : LoopEnv) (st : LoopState) (tc : ToolCall)
    (r : ToolResult) (d : Nat) :
    ∃ extraM extraT,
      (afterExec env st tc r d).conv.messages =
        st.conv.messages ++ Conversation.mkToolActivity tc.name tc.args r d :: extraM ∧
      (afterExec env st tc r d).conv.openai_messages =
        st.conv.openai_messages ++ extraT ++
          [.tool tc.id (truncateResult (env.dumps r))] := by
  by_cases hc : tc.name = "download_file" ∧ r.success = true ∧ r.deduplicated = false
  · cases hv : verify_download r with
    | some w =>
        refine ⟨[{ role := "system", content := w }],
                [.user ("[SYSTEM CHECK] " ++ w)], ?_, ?_⟩ <;>
          simp [afterExec, hc, hv, Conversation.add_tool_activity,
                Conversation.add_system_message]
    | none =>
        by_cases he : casefold r.filename ∈ st.emitted_file_names
        · refine ⟨[], [], ?_, ?_⟩ <;>
            simp [afterExec, hc, hv, he, Conversation.add_tool_activity]
        · refine ⟨[Conversation.mkFileMessage r.filename r.path r.size_bytes],
                  [], ?_, ?_⟩ <;>
            simp [afterExec, hc, hv, he, Conversation.add_tool_activity,
                  Conversation.add_file_message]
  · refine ⟨[], [], ?_, ?_⟩ <;>
      simp [afterExec, hc, Conversation.add_tool_activity]

/-- C8: every executed tool call appends a tool-role transcript entry
whose content is the serialized result put through the 15,000-character
truncation (shorter results pass through unmodified; longer ones are cut
to the first 15,000 characters with the truncation marker appended) and
whose `tool_call_id` is the originating call's identifier. -/
theorem C8_tool_transcript_entry (env : LoopEnv) (st : LoopState) (tc : ToolCall)
    (st' : LoopState) (h : execOneCall env st tc = .ok st') :
    (∃ r d extraM extraT,
      st'.conv.messages = st.conv.messages ++
        Conversation.mkToolActivity tc.name tc.args r d :: extraM ∧
      st'.conv.openai_messages = st.conv.openai_messages ++ extraT ++
        [.tool tc.id (truncateResult (env.dumps r))]) ∧
    (∀ s : String, s.length ≤ 15000 → truncateResult s = s) ∧
    (∀ s : String, 15000 < s.length →
      truncateResult s = s.take 15000 ++ "... [truncated]") := by
  refine ⟨?_, ?_, ?_⟩
  · unfold execOneCall at h
    by_cases hn : tc.name = "download_file"
    · simp only [hn] at h
      rw [if_neg (by decide : ¬(knownTool "download_file" = false))] at h
      simp only [if_true] at h
      cases hl : lookupCache st.download_cache (dedupKey tc.args) with
      | some cached =>
          rw [hl] at h
          cases h
          obtain ⟨eM, eT, h1, h2⟩ := afterExec_spec env st tc
            { cached with deduplicated := true, dedupReason := dedupReasonMsg } 0
          exact ⟨_, _, eM, eT, h1, h2⟩
      | none =>
          rw [hl] at h
          cases hx : env.exec st.tool_call_count "download_file" tc.args with
          | error e => rw [hx] at h; cases h
          | ok result =>
              rw [hx] at h
              simp only at h
              cases h
              obtain ⟨eM, eT, h1, h2⟩ := afterExec_spec env
                { st with
                  execLog := st.execLog ++ [(st.tool_call_count, "download_file", tc.args)],
                  download_cache :=
                    if result.success = true then
                      (dedupKey tc.args, result) :: st.download_cache
                    else st.download_cache }
                tc result (env.execDur st.tool_call_count)
              exact ⟨_, _, eM, eT, h1, h2⟩
    · by_cases hk : knownTool tc.name = false
      · rw [if_pos hk] at h
        cases h
        obtain ⟨eM, eT, h1, h2⟩ := afterExec_spec env st tc
          { error := "Unknown tool: " ++ tc.name } 0
        exact ⟨_, _, eM, eT, h1, h2⟩
      · rw [if_neg hk, if_neg hn] at h
        cases hx : env.exec st.tool_call_count tc.name tc.args with
        | error e => rw [hx] at h; cases h
        | ok result =>
            rw [hx] at h
            simp only at h
            cases h
            obtain ⟨eM, eT, h1, h2⟩ := afterExec_spec env st tc result
              (env.execDur st.tool_call_count)
            exact ⟨_, _, eM, eT, h1, h2⟩
  · intro s hs
    unfold truncateResult
    rw [if_neg (by omega)]
  · intro s hs
    unfold truncateResult
    rw [if_pos (by omega)]

/-- Witness for `C8_tool_transcript_entry` on a concrete search call. -/
theorem C8_tool_transcript_entry_witness :
    (∃ r d extraM extraT,
      (stateOf (execOneCall envW8 (initState ({} : Conversation)) tcW8)).conv.messages =
        (initState ({} : Conversation)).conv.messages ++
          Conversation.mkToolActivity tcW8.name tcW8.args r d :: extraM ∧
      (stateOf (execOneCall envW8 (initState ({} : Conversation)) tcW8)).conv.openai_messages =
        (initState ({} : Conversation)).conv.openai_messages ++ extraT ++
          [.tool tcW8.id (truncateResult (envW8.dumps r))]) ∧
    (∀ s : String, s.length ≤ 15000 → truncateResult s = s) ∧
    (∀ s : String, 15000 < s.length →
      truncateResult s = s.take 15000 ++ "... [truncated]") :=
  C8_tool_transcript_entry envW8 (initState {}) tcW8 _ rfl

theorem containsStr_intro (s b pre post : String)
    (h : s.data = pre.data ++ b.data ++ post.data) : containsStr s b :=
  ⟨pre.data, post.data, h⟩

theorem intercalate_singleton (sep a : String) :
    String.intercalate sep [a] = a := by
  simp [String.intercalate, String.intercalate.go]

theorem intercalate_pair (sep a b : String) :
    String.intercalate sep [a, b] = a ++ sep ++ b := by
  simp [String.intercalate, String.intercalate.go]

/-- When the filename matches a known extension and the size is under
its floor, `_verify_download` warns, the size warning coming first. -/
theorem verify_download_size_some (r : ToolResult) (e : String) (m : Nat)
    (hext : findSizeExt r.filename = some (e, m)) (hsize : r.size_bytes < m) :
    verify_download r =
      some ("DOWNLOAD VERIFICATION WARNING:\n" ++ String.intercalate "\n"
        (([sizeWarningText e r.size_bytes m] ++
          (if r.warning.isEmpty then [] else [r.warning])).map
            (fun w => "- " ++ w))) := by
  unfold verify_download
  simp only [hext]
  rw [if_pos hsize]
  simp

/-- C4: a successful, non-deduplicated download whose filename matches a
known extension (case-insensitively) and whose size is under that type's
floor produces no file Message and exactly one system Message: the
verification warning, which contains the warning phrase and names the
expected floor. -/
theorem C4_small_download_warning (env : LoopEnv) (st : LoopState)
    (tc : ToolCall) (r : ToolResult) (e : String) (m : Nat)
    (hname : tc.name = "download_file")
    (hmiss : lookupCache st.download_cache (dedupKey tc.args) = none)
    (hexec : env.exec st.tool_call_count tc.name tc.args = .ok r)
    (hsucc : r.success = true) (hded : r.deduplicated = false)
    (hext : findSizeExt r.filename = some (e, m)) (hsize : r.size_bytes < m) :
    ∃ st' w, execOneCall env st tc = .ok st' ∧ verify_download r = some w ∧
      st'.conv.messages = st.conv.messages ++
        [Conversation.mkToolActivity tc.name tc.args r
          (env.execDur st.tool_call_count),
         { role := "system", content := w }] ∧
      containsStr w "DOWNLOAD VERIFICATION WARNING" ∧
      containsStr w ("Expected at least " ++ fmtComma m ++ " bytes") := by
  have hw := verify_download_size_some r e m hext hsize
  rw [hname] at hexec
  have hstep : execOneCall env st tc =
      .ok (afterExec env
        { st with
          execLog := st.execLog ++ [(st.tool_call_count, "download_file", tc.args)],
          download_cache := (dedupKey tc.args, r) :: st.download_cache }
        tc r (env.execDur st.tool_call_count)) := by
    unfold execOneCall
    simp only [hname]
    rw [if_neg (by decide : ¬(knownTool "download_file" = false))]
    simp only [if_true]
    rw [hmiss, hexec]
    simp only [hsucc, if_true]
  refine ⟨_, _, hstep, hw, ?_, ?_, ?_⟩
  · simp [afterExec, hname, hsucc, hded, hw, Conversation.add_tool_activity,
          Conversation.add_system_message]
  · -- the warning phrase heads the message
    apply containsStr_intro _ _ ""
      (":\n" ++ String.intercalate "\n"
        (([sizeWarningText e r.size_bytes m] ++
          (if r.warning.isEmpty then [] else [r.warning])).map (fun w => "- " ++ w)))
    have hH : ("DOWNLOAD VERIFICATION WARNING:\n" : String).data =
        ("DOWNLOAD VERIFICATION WARNING" : String).data ++ (":\n" : String).data := rfl
    simp [String.data_append, hH]
  · -- the floor is named inside the size warning
    have hs3 : (" file. Expected at least " : String).data =
        (" file. " : String).data ++ ("Expected at least " : String).data := rfl
    have hs4 : (" bytes. The URL may have returned an error page." : String).data =
        (" bytes" : String).data
          ++ (". The URL may have returned an error page." : String).data := rfl
    by_cases hcap : r.warning.isEmpty
    · apply containsStr_intro _ _
        ("DOWNLOAD VERIFICATION WARNING:\n" ++ "- " ++ "File size ("
          ++ fmtComma r.size_bytes ++ " bytes) is suspiciously small for a "
          ++ strUpper e ++ " file. ")
        (". The URL may have returned an error page.")
      simp [hcap, intercalate_singleton, sizeWarningText, String.data_append, hs3, hs4]
    · apply containsStr_intro _ _
        ("DOWNLOAD VERIFICATION WARNING:\n" ++ "- " ++ "File size ("
          ++ fmtComma r.size_bytes ++ " bytes) is suspiciously small for a "
          ++ strUpper e ++ " file. ")
        (". The URL may have returned an error page." ++ "\n" ++ "- " ++ r.warning)
      simp [hcap, intercalate_pair, sizeWarningText, String.data_append, hs3, hs4]

/-- Witness for `C4_small_download_warning`: a 50-byte `small.pdf`. -/
theorem C4_small_download_warning_witness :
    ∃ st' w, execOneCall envW4 (initState ({} : Conversation)) tcW4 = .ok st' ∧
      verify_download { success := true, filename := "small.pdf", path := "downloads/small.pdf", size_bytes := 50 } = some w ∧
      st'.conv.messages = (initState ({} : Conversation)).conv.messages ++
        [Conversation.mkToolActivity tcW4.name tcW4.args { success := true, filename := "small.pdf", path := "downloads/small.pdf", size_bytes := 50 } (envW4.execDur 0),
         { role := "system", content := w }] ∧
      containsStr w "DOWNLOAD VERIFICATION WARNING" ∧
      containsStr w ("Expected at least " ++ fmtComma 20000 ++ " bytes") :=
  C4_small_download_warning envW4 (initState {}) tcW4
    { success := true, filename := "small.pdf", path := "downloads/small.pdf", size_bytes := 50 }
    ".pdf" 20000 rfl rfl rfl rfl rfl rfl (by decide)

/-- Exhaustive case analysis of one `for`-loop iteration: a propagating
capability fault, an unknown tool, a dedup-cache hit, a cache miss with
a returning download capability, or a returning non-download capability.
Every returning case funnels through `afterExec`. -/
theorem execOneCall_shape (env : LoopEnv) (st : LoopState) (tc : ToolCall) :
    (∃ e, execOneCall env st tc = .error (e,
      { st with tool_call_count := st.tool_call_count + 1,
                execLog := st.execLog ++ [(st.tool_call_count, tc.name, tc.args)] })) ∨
    (knownTool tc.name = false ∧
      execOneCall env st tc =
        .ok (afterExec env st tc { error := "Unknown tool: " ++ tc.name } 0)) ∨
    (∃ c, tc.name = "download_file" ∧
      lookupCache st.download_cache (dedupKey tc.args) = some c ∧
      execOneCall env st tc = .ok (afterExec env st tc
        { c with deduplicated := true, dedupReason := dedupReasonMsg } 0)) ∨
    (∃ r, tc.name = "download_file" ∧
      lookupCache st.download_cache (dedupKey tc.args) = none ∧
      env.exec st.tool_call_count tc.name tc.args = .ok r ∧
      execOneCall env st tc = .ok (afterExec env
        { st with execLog := st.execLog ++ [(st.tool_call_count, tc.name, tc.args)],
                  download_cache := if r.success = true then (dedupKey tc.args, r) :: st.download_cache else st.download_cache }
        tc r (env.execDur st.tool_call_count))) ∨
    (∃ r, knownTool tc.name = true ∧ tc.name ≠ "download_file" ∧
      env.exec st.tool_call_count tc.name tc.args = .ok r ∧
      execOneCall env st tc =
        .ok (afterExec env st tc r (env.execDur st.tool_call_count))) := by
  by_cases hn : tc.name = "download_file"
  · cases hl : lookupCache st.download_cache (dedupKey tc.args) with
    | some cached =>
        refine Or.inr (Or.inr (Or.inl ⟨cached, hn, rfl, ?_⟩))
        unfold execOneCall
        simp only [hn]
        rw [if_neg (by decide : ¬(knownTool "download_file" = false))]
        simp only [if_true]
        rw [hl]
    | none =>
        cases hx : env.exec st.tool_call_count tc.name tc.args with
        | error e =>
            refine Or.inl ⟨e, ?_⟩
            unfold execOneCall
            simp only [hn]
            rw [if_neg (by decide : ¬(knownTool "download_file" = false))]
            simp only [if_true]
            rw [hn] at hx
            rw [hl, hx]
        | ok r =>
            refine Or.inr (Or.inr (Or.inr (Or.inl ⟨r, hn, rfl, rfl, ?_⟩)))
            unfold execOneCall
            simp only [hn]
            rw [if_neg (by decide : ¬(knownTool "download_file" = false))]
            simp only [if_true]
            rw [hn] at hx
            rw [hl, hx]
  · by_cases hk : knownTool tc.name = false
    · refine Or.inr (Or.inl ⟨hk, ?_⟩)
      unfold execOneCall
      rw [if_pos hk]
    · cases hx : env.exec st.tool_call_count tc.name tc.args with
      | error e =>
          refine Or.inl ⟨e, ?_⟩
          unfold execOneCall
          rw [if_neg hk, if_neg hn, hx]
      | ok r =>
          refine Or.inr (Or.inr (Or.inr (Or.inr ⟨r, by simpa using hk, hn, rfl, ?_⟩)))
          unfold execOneCall
          rw [if_neg hk, if_neg hn, hx]

/-- Exhaustive case analysis of the executed call's tail: cache, ghost
log and counter always behave the same; the policy either skips (not a
successful fresh download), warns (emitted set untouched), repeats a
name already announced (emitted set untouched), or announces a new file
(name recorded). -/
theorem afterExec_cases (env : LoopEnv) (st : LoopState) (tc : ToolCall)
    (r : ToolResult) (d : Nat) :
    (afterExec env st tc r d).download_cache = st.download_cache ∧
    (afterExec env st tc r d).execLog = st.execLog ∧
    (afterExec env st tc r d).tool_call_count = st.tool_call_count + 1 ∧
    ((¬(tc.name = "download_file" ∧ r.success = true ∧ r.deduplicated = false) ∧
        (afterExec env st tc r d).emitted_file_names = st.emitted_file_names ∧
        (afterExec env st tc r d).conv.messages = st.conv.messages ++
          [Conversation.mkToolActivity tc.name tc.args r d]) ∨
     ((tc.name = "download_file" ∧ r.success = true ∧ r.deduplicated = false) ∧
       ∃ w, verify_download r = some w ∧
        (afterExec env st tc r d).emitted_file_names = st.emitted_file_names ∧
        (afterExec env st tc r d).conv.messages = st.conv.messages ++
          [Conversation.mkToolActivity tc.name tc.args r d,
           { role := "system", content := w }]) ∨
     ((tc.name = "download_file" ∧ r.success = true ∧ r.deduplicated = false) ∧
        verify_download r = none ∧ casefold r.filename ∈ st.emitted_file_names ∧
        (afterExec env st tc r d).emitted_file_names = st.emitted_file_names ∧
        (afterExec env st tc r d).conv.messages = st.conv.messages ++
          [Conversation.mkToolActivity tc.name tc.args r d]) ∨
     ((tc.name = "download_file" ∧ r.success = true ∧ r.deduplicated = false) ∧
        verify_download r = none ∧ casefold r.filename ∉ st.emitted_file_names ∧
        (afterExec env st tc r d).emitted_file_names =
          casefold r.filename :: st.emitted_file_names ∧
        (afterExec env st tc r d).conv.messages = st.conv.messages ++
          [Conversation.mkToolActivity tc.name tc.args r d,
           Conversation.mkFileMessage r.filename r.path r.size_bytes])) := by
  refine ⟨?_, ?_, ?_, ?_⟩
  · unfold afterExec
    split <;> rfl
  · unfold afterExec
    split <;> rfl
  · rfl
  · by_cases hc : tc.name = "download_file" ∧ r.success = true ∧ r.deduplicated = false
    · cases hv : verify_download r with
      | some w =>
          refine Or.inr (Or.inl ⟨hc, w, rfl, ?_, ?_⟩) <;>
            simp [afterExec, hc, hv, Conversation.add_tool_activity,
                  Conversation.add_system_message]
      | none =>
          by_cases he : casefold r.filename ∈ st.emitted_file_names
          · refine Or.inr (Or.inr (Or.inl ⟨hc, rfl, he, ?_, ?_⟩)) <;>
              simp [afterExec, hc, hv, he, Conversation.add_tool_activity]
          · refine Or.inr (Or.inr (Or.inr ⟨hc, rfl, he, ?_, ?_⟩)) <;>
              simp [afterExec, hc, hv, he, Conversation.add_tool_activity,
                    Conversation.add_file_message]
    · refine Or.inl ⟨hc, ?_, ?_⟩ <;>
        simp [afterExec, hc, Conversation.add_tool_activity]

/-- A download call whose dedup key is cached takes the dedup branch. -/
theorem execOneCall_download_hit (env : LoopEnv) (st : LoopState) (tc : ToolCall)
    (c : ToolResult) (hname : tc.name = "download_file")
    (hl : lookupCache st.download_cache (dedupKey tc.args) = some c) :
    execOneCall env st tc = .ok (afterExec env st tc
      { c with deduplicated := true, dedupReason := dedupReasonMsg } 0) := by
  unfold execOneCall
  simp only [hname]
  rw [if_neg (by decide : ¬(knownTool "download_file" = false))]
  simp only [if_true]
  rw [hl]

/-- A download call whose dedup key is not cached executes the
capability; only a successful result is written to the cache. -/
theorem execOneCall_download_miss (env : LoopEnv) (st : LoopState) (tc : ToolCall)
    (r : ToolResult) (hname : tc.name = "download_file")
    (hl : lookupCache st.download_cache (dedupKey tc.args) = none)
    (hx : env.exec st.tool_call_count tc.name tc.args = .ok r) :
    execOneCall env st tc = .ok (afterExec env
      { st with execLog := st.execLog ++ [(st.tool_call_count, tc.name, tc.args)],
                download_cache := if r.success = true then (dedupKey tc.args, r) :: st.download_cache else st.download_cache }
      tc r (env.execDur st.tool_call_count)) := by
  unfold execOneCall
  simp only [hname]
  rw [if_neg (by decide : ¬(knownTool "download_file" = false))]
  simp only [if_true]
  rw [hname] at hx
  rw [hl, hx]

/-- C2: FAILS as stated — only successful results populate the dedup
cache, so after a FAILED first download the identical second call is
executed again rather than answered from the cache: with two identical
download requests and a failing capability, both calls invoke the
capability and no recorded result is dedup-annotated. -/
theorem C2_counterexample :
    (runState (process_message envC2 ({} : Conversation))).map
      (fun st => st.execLog.length) = some 2 ∧
    (runConv (process_message envC2 ({} : Conversation))).messages.countP
      (fun m => (m.tool_result.map ToolResult.deduplicated).getD false) = 0 :=
  ⟨rfl, rfl⟩

/-- C2 (amended): a download call whose dedup key is cached (which
happens exactly when an earlier identical call succeeded) invokes no
capability and records the cached result annotated `deduplicated` with
duration 0; on a cache miss the capability is invoked, and a failed
execution leaves the cache unchanged, so the key stays uncached. -/
theorem C2_dedup_requires_success (env : LoopEnv) (st : LoopState) (tc : ToolCall)
    (hname : tc.name = "download_file") :
    (∀ c, lookupCache st.download_cache (dedupKey tc.args) = some c →
      ∃ st', execOneCall env st tc = .ok st' ∧
        st'.execLog = st.execLog ∧
        st'.download_cache = st.download_cache ∧
        st'.conv.messages = st.conv.messages ++
          [Conversation.mkToolActivity tc.name tc.args
            { c with deduplicated := true, dedupReason := dedupReasonMsg } 0]) ∧
    (lookupCache st.download_cache (dedupKey tc.args) = none →
      (stateOf (execOneCall env st tc)).execLog =
        st.execLog ++ [(st.tool_call_count, tc.name, tc.args)]) ∧
    (∀ r, lookupCache st.download_cache (dedupKey tc.args) = none →
      env.exec st.tool_call_count tc.name tc.args = .ok r → r.success = false →
      ∃ st', execOneCall env st tc = .ok st' ∧
        st'.download_cache = st.download_cache ∧
        st'.conv.messages = st.conv.messages ++
          [Conversation.mkToolActivity tc.name tc.args r
            (env.execDur st.tool_call_count)]) := by
  refine ⟨?_, ?_, ?_⟩
  · intro c hl
    refine ⟨_, execOneCall_download_hit env st tc c hname hl, rfl, rfl, ?_⟩
    simp [afterExec, Conversation.add_tool_activity]
  · intro hl
    unfold execOneCall
    simp only [hname]
    rw [if_neg (by decide : ¬(knownTool "download_file" = false))]
    simp only [if_true]
    rw [hl]
    cases hx : env.exec st.tool_call_count "download_file" tc.args with
    | error e => simp [stateOf, hname]
    | ok r =>
        have hlog : ∀ st₀, (afterExec env st₀ tc r (env.execDur st.tool_call_count)).execLog = st₀.execLog := by
          intro st₀
          unfold afterExec
          split <;> rfl
        simp [stateOf, hname, hlog]
  · intro r hl hx hfail
    refine ⟨_, execOneCall_download_miss env st tc r hname hl hx, ?_, ?_⟩
    · have hcache := (afterExec_cases env
        { st with execLog := st.execLog ++ [(st.tool_call_count, tc.name, tc.args)],
                  download_cache := if r.success = true then (dedupKey tc.args, r) :: st.download_cache else st.download_cache }
        tc r (env.execDur st.tool_call_count)).1
      rw [hcache]
      simp [hfail]
    · simp [afterExec, hfail, Conversation.add_tool_activity]

/-- Witness for `C2_dedup_requires_success` on a cache that already
holds the key. -/
theorem C2_dedup_requires_success_witness :
    ∃ st', execOneCall envW2 stW2 tcW2 = .ok st' ∧
      st'.execLog = stW2.execLog ∧
      st'.download_cache = stW2.download_cache ∧
      st'.conv.messages = stW2.conv.messages ++
        [Conversation.mkToolActivity tcW2.name tcW2.args
          { cachedW2 with deduplicated := true, dedupReason := dedupReasonMsg } 0] :=
  (C2_dedup_requires_success envW2 stW2 tcW2 rfl).1 cachedW2 (by decide)

/-- C10: a successful, non-deduplicated download whose verification
warns appends the warning instead of a file Message and leaves the
emitted-file set untouched, so a later successful, warning-free download
with the same (not yet announced) case-folded filename still appends its
file Message and records the name. -/
theorem C10_warning_leaves_name_free (env : LoopEnv) :
    (∀ (st : LoopState) (tc : ToolCall) (r : ToolResult) (w : String),
      tc.name = "download_file" →
      lookupCache st.download_cache (dedupKey tc.args) = none →
      env.exec st.tool_call_count tc.name tc.args = .ok r →
      r.success = true → r.deduplicated = false →
      verify_download r = some w →
      ∃ st', execOneCall env st tc = .ok st' ∧
        st'.emitted_file_names = st.emitted_file_names ∧
        st'.conv.messages = st.conv.messages ++
          [Conversation.mkToolActivity tc.name tc.args r
            (env.execDur st.tool_call_count),
           { role := "system", content := w }]) ∧
    (∀ (st : LoopState) (tc : ToolCall) (r : ToolResult),
      tc.name = "download_file" →
      lookupCache st.download_cache (dedupKey tc.args) = none →
      env.exec st.tool_call_count tc.name tc.args = .ok r →
      r.success = true → r.deduplicated = false →
      verify_download r = none →
      casefold r.filename ∉ st.emitted_file_names →
      ∃ st', execOneCall env st tc = .ok st' ∧
        st'.emitted_file_names = casefold r.filename :: st.emitted_file_names ∧
        st'.conv.messages = st.conv.messages ++
          [Conversation.mkToolActivity tc.name tc.args r
            (env.execDur st.tool_call_count),
           Conversation.mkFileMessage r.filename r.path r.size_bytes]) := by
  constructor
  · intro st tc r w hname hl hx hsucc hded hw
    refine ⟨_, execOneCall_download_miss env st tc r hname hl hx, ?_, ?_⟩ <;>
      simp [afterExec, hname, hsucc, hded, hw, Conversation.add_tool_activity,
            Conversation.add_system_message]
  · intro st tc r hname hl hx hsucc hded hv he
    refine ⟨_, execOneCall_download_miss env st tc r hname hl hx, ?_, ?_⟩ <;>
      simp [afterExec, hname, hsucc, hded, hv, he, Conversation.add_tool_activity,
            Conversation.add_file_message]

/-- Witness for `C10_warning_leaves_name_free`: a 50-byte `r.pdf`
triggers the warning and reserves nothing; a later large `R.PDF` (same
case-folded name) is announced. -/
theorem C10_warning_leaves_name_free_witness :
    (∃ st', execOneCall envW10 (initState ({} : Conversation)) tcW10a = .ok st' ∧
      st'.emitted_file_names = (initState ({} : Conversation)).emitted_file_names ∧
      st'.conv.messages = (initState ({} : Conversation)).conv.messages ++
        [Conversation.mkToolActivity tcW10a.name tcW10a.args rW10a (envW10.execDur 0),
         { role := "system", content := (verify_download rW10a).getD "" }]) ∧
    (∃ st', execOneCall envW10 { initState ({} : Conversation) with tool_call_count := 1 } tcW10b = .ok st' ∧
      st'.emitted_file_names = [casefold rW10b.filename] ∧
      st'.conv.messages = (initState ({} : Conversation)).conv.messages ++
        [Conversation.mkToolActivity tcW10b.name tcW10b.args rW10b (envW10.execDur 1),
         Conversation.mkFileMessage rW10b.filename rW10b.path rW10b.size_bytes]) := by
  constructor
  · exact (C10_warning_leaves_name_free envW10).1 (initState {}) tcW10a rW10a
      ((verify_download rW10a).getD "") rfl rfl rfl rfl rfl rfl
  · exact (C10_warning_leaves_name_free envW10).2
      { initState ({} : Conversation) with tool_call_count := 1 } tcW10b rW10b
      rfl rfl rfl rfl rfl rfl (by simp [initState])

theorem dedupImpliesSuccess_activity (n : String) (a : Args) (r : ToolResult)
    (d : Nat) (hr : r.deduplicated = true → r.success = true) :
    dedupImpliesSuccess (Conversation.mkToolActivity n a r d) := by
  intro r' hr' hd
  have : r = r' := by
    simpa [Conversation.mkToolActivity] using hr'
  subst this
  exact hr hd

theorem dedupImpliesSuccess_of_none (m : ChatMessage) (h : m.tool_result = none) :
    dedupImpliesSuccess m := by
  intro r' hr' _
  rw [h] at hr'
  cases hr'

/-- Extending the conversation with messages that never record a
dedup-annotated failure, without touching the cache, preserves `Inv9`. -/
theorem Inv9_extend (base : List ChatMessage) (st st' : LoopState)
    (new : List ChatMessage)
    (hconv : st'.conv.messages = st.conv.messages ++ new)
    (hcache : st'.download_cache = st.download_cache)
    (hnew : ∀ m ∈ new, dedupImpliesSuccess m)
    (h : Inv9 base st) : Inv9 base st' := by
  obtain ⟨hc, δ, hδ, hm⟩ := h
  refine ⟨?_, δ ++ new, ?_, ?_⟩
  · intro k r hk
    rw [hcache] at hk
    exact hc k r hk
  · rw [hconv, hδ, List.append_assoc]
  · intro m hmem
    rcases List.mem_append.mp hmem with hmem | hmem
    · exact hm m hmem
    · exact hnew m hmem

theorem insertSystemPrompt_messages (env : LoopEnv) (c : Conversation) :
    (insertSystemPrompt env c).messages = c.messages := by
  unfold insertSystemPrompt
  split
  · rfl
  · split <;> rfl

theorem batchStart_cache (st : LoopState) (resp : LLMResponse) :
    (batchStart st resp).download_cache = st.download_cache := by
  unfold batchStart
  split <;> rfl

theorem batchStart_emitted (st : LoopState) (resp : LLMResponse) :
    (batchStart st resp).emitted_file_names = st.emitted_file_names := by
  unfold batchStart
  split <;> rfl

theorem batchStart_messages (st : LoopState) (resp : LLMResponse) :
    (batchStart st resp).conv.messages = st.conv.messages ∨
    (batchStart st resp).conv.messages = st.conv.messages ++
      [{ role := "assistant", content := resp.content }] := by
  unfold batchStart
  by_cases h : resp.content.isEmpty
  · left
    simp [h]
  · right
    simp [h, Conversation.add_assistant_message]

/-- One `for`-loop iteration preserves `Inv9`, provided capability
results never arrive already dedup-annotated (they are raw capability
dicts; the annotation is added only by the loop). -/
theorem execOneCall_Inv9 (env : LoopEnv)
    (henv : ∀ i n a r, env.exec i n a = .ok r → r.deduplicated = false)
    (base : List ChatMessage) (st : LoopState) (tc : ToolCall)
    (h : Inv9 base st) : Inv9 base (stateOf (execOneCall env st tc)) := by
  have hCache := h.1
  rcases execOneCall_shape env st tc with
    ⟨e, hq⟩ | ⟨hk, hq⟩ | ⟨c, hn, hl, hq⟩ | ⟨r, hn, hl, hx, hq⟩ | ⟨r, hk, hn, hx, hq⟩
  · rw [hq]
    exact Inv9_extend base st _ [] (by simp [stateOf]) (by simp [stateOf]) (by simp) h
  · rw [hq]
    rcases (afterExec_cases env st tc { error := "Unknown tool: " ++ tc.name } 0).2.2.2 with
      ⟨-, hemit, hmsg⟩ | ⟨hc, -⟩ | ⟨hc, -⟩ | ⟨hc, -⟩
    · exact Inv9_extend base st _ _ hmsg
        (afterExec_cases env st tc _ 0).1
        (by
          intro m hm
          rw [List.mem_singleton] at hm
          subst hm
          exact dedupImpliesSuccess_activity _ _ _ _ (by simp)) h
    · simp at hc
    · simp at hc
    · simp at hc
  · rw [hq]
    have hsucc : ({ c with deduplicated := true, dedupReason := dedupReasonMsg } : ToolResult).success = true := by
      simpa using hCache (dedupKey tc.args) c hl
    have hact : dedupImpliesSuccess (Conversation.mkToolActivity tc.name tc.args
        { c with deduplicated := true, dedupReason := dedupReasonMsg } 0) :=
      dedupImpliesSuccess_activity _ _ _ _ (fun _ => hsucc)
    rcases (afterExec_cases env st tc
        { c with deduplicated := true, dedupReason := dedupReasonMsg } 0).2.2.2 with
      ⟨-, -, hmsg⟩ | ⟨-, w, -, -, hmsg⟩ | ⟨-, -, -, -, hmsg⟩ | ⟨-, -, -, -, hmsg⟩
    · exact Inv9_extend base st _ _ hmsg (afterExec_cases env st tc _ 0).1
        (by
          intro m hm
          rw [List.mem_singleton] at hm
          subst hm
          exact hact) h
    · refine Inv9_extend base st _ _ hmsg (afterExec_cases env st tc _ 0).1 ?_ h
      intro m hm
      rcases List.mem_pair.mp hm with hm | hm <;> subst hm
      · exact hact
      · exact dedupImpliesSuccess_of_none _ rfl
    · exact Inv9_extend base st _ _ hmsg (afterExec_cases env st tc _ 0).1
        (by
          intro m hm
          rw [List.mem_singleton] at hm
          subst hm
          exact hact) h
    · refine Inv9_extend base st _ _ hmsg (afterExec_cases env st tc _ 0).1 ?_ h
      intro m hm
      rcases List.mem_pair.mp hm with hm | hm <;> subst hm
      · exact hact
      · exact dedupImpliesSuccess_of_none _ rfl
  · rw [hq]
    have hded := henv st.tool_call_count tc.name tc.args r hx
    have hact : dedupImpliesSuccess (Conversation.mkToolActivity tc.name tc.args r
        (env.execDur st.tool_call_count)) :=
      dedupImpliesSuccess_activity _ _ _ _ (by simp [hded])
    set st₀ : LoopState :=
      { st with execLog := st.execLog ++ [(st.tool_call_count, tc.name, tc.args)],
                download_cache := if r.success = true then (dedupKey tc.args, r) :: st.download_cache else st.download_cache } with hst₀
    have hCache₀ : CacheOK st₀ := by
      intro k q hkq
      by_cases hrs : r.success = true
      · simp only [hst₀, hrs, if_true] at hkq
        unfold lookupCache at hkq
        by_cases hke : dedupKey tc.args = k
        · rw [if_pos hke] at hkq
          cases hkq
          exact hrs
        · rw [if_neg hke] at hkq
          exact hCache k q hkq
      · simp only [hst₀, hrs, if_false, Bool.false_eq_true] at hkq
        exact hCache k q hkq
    have h₀ : Inv9 base st₀ := by
      obtain ⟨-, δ, hδ, hm⟩ := h
      exact ⟨hCache₀, δ, hδ, hm⟩
    rcases (afterExec_cases env st₀ tc r (env.execDur st.tool_call_count)).2.2.2 with
      ⟨-, -, hmsg⟩ | ⟨-, w, -, -, hmsg⟩ | ⟨-, -, -, -, hmsg⟩ | ⟨-, -, -, -, hmsg⟩
    · exact Inv9_extend base st₀ _ _ hmsg (afterExec_cases env st₀ tc _ _).1
        (by
          intro m hm
          rw [List.mem_singleton] at hm
          subst hm
          exact hact) h₀
    · refine Inv9_extend base st₀ _ _ hmsg (afterExec_cases env st₀ tc _ _).1 ?_ h₀
      intro m hm
      rcases List.mem_pair.mp hm with hm | hm <;> subst hm
      · exact hact
      · exact dedupImpliesSuccess_of_none _ rfl
    · exact Inv9_extend base st₀ _ _ hmsg (afterExec_cases env st₀ tc _ _).1
        (by
          intro m hm
          rw [List.mem_singleton] at hm
          subst hm
          exact hact) h₀
    · refine Inv9_extend base st₀ _ _ hmsg (afterExec_cases env st₀ tc _ _).1 ?_ h₀
      intro m hm
      rcases List.mem_pair.mp hm with hm | hm <;> subst hm
      · exact hact
      · exact dedupImpliesSuccess_of_none _ rfl
  · rw [hq]
    have hded := henv st.tool_call_count tc.name tc.args r hx
    have hact : dedupImpliesSuccess (Conversation.mkToolActivity tc.name tc.args r
        (env.execDur st.tool_call_count)) :=
      dedupImpliesSuccess_activity _ _ _ _ (by simp [hded])
    rcases (afterExec_cases env st tc r (env.execDur st.tool_call_count)).2.2.2 with
      ⟨-, -, hmsg⟩ | ⟨-, w, -, -, hmsg⟩ | ⟨-, -, -, -, hmsg⟩ | ⟨-, -, -, -, hmsg⟩
    · exact Inv9_extend base st _ _ hmsg (afterExec_cases env st tc _ _).1
        (by
          intro m hm
          rw [List.mem_singleton] at hm
          subst hm
          exact hact) h
    · refine Inv9_extend base st _ _ hmsg (afterExec_cases env st tc _ _).1 ?_ h
      intro m hm
      rcases List.mem_pair.mp hm with hm | hm <;> subst hm
      · exact hact
      · exact dedupImpliesSuccess_of_none _ rfl
    · exact Inv9_extend base st _ _ hmsg (afterExec_cases env st tc _ _).1
        (by
          intro m hm
          rw [List.mem_singleton] at hm
          subst hm
          exact hact) h
    · refine Inv9_extend base st _ _ hmsg (afterExec_cases env st tc _ _).1 ?_ h
      intro m hm
      rcases List.mem_pair.mp hm with hm | hm <;> subst hm
      · exact hact
      · exact dedupImpliesSuccess_of_none _ rfl

theorem execBatch_Inv9 (env : LoopEnv)
    (henv : ∀ i n a r, env.exec i n a = .ok r → r.deduplicated = false)
    (base : List ChatMessage) :
    ∀ (calls : List ToolCall) (st : LoopState), Inv9 base st →
      Inv9 base (stateOf (execBatch env st calls)) := by
  intro calls
  induction calls with
  | nil => intro st h; exact h
  | cons tc rest ih =>
      intro st h
      unfold execBatch
      cases hc : execOneCall env st tc with
      | error e =>
          have := execOneCall_Inv9 env henv base st tc h
          rw [hc] at this
          exact this
      | ok st₁ =>
          have := execOneCall_Inv9 env henv base st tc h
          rw [hc] at this
          exact ih st₁ this

theorem loopGo_Inv9 (env : LoopEnv) (cfg : AgentCfg)
    (henv : ∀ i n a r, env.exec i n a = .ok r → r.deduplicated = false)
    (base : List ChatMessage) :
    ∀ (fuel k : Nat) (st : LoopState), Inv9 base st →
      Inv9 base ((loopGo env cfg fuel k st).1) := by
  intro fuel
  induction fuel with
  | zero => intro k st h; exact h
  | succ n ih =>
      intro k st h
      unfold loopGo
      by_cases hlt : st.tool_call_count < cfg.max_tool_calls
      · rw [if_pos hlt]
        cases hr : env.llm k with
        | error e => exact h
        | ok resp =>
            by_cases hne : resp.tool_calls.isEmpty
            · simp only [hne, if_true]
              exact Inv9_extend base st _
                [{ role := "assistant", content := resp.content }]
                (by simp [finalTextState, Conversation.add_assistant_message])
                rfl
                (by
                  intro m hm
                  rw [List.mem_singleton] at hm
                  subst hm
                  exact dedupImpliesSuccess_of_none _ rfl) h
            · simp only [hne, if_false, Bool.false_eq_true]
              have hb : Inv9 base (batchStart st resp) := by
                rcases batchStart_messages st resp with hmsg | hmsg
                · exact Inv9_extend base st _ [] (by simp [hmsg])
                    (batchStart_cache st resp) (by simp) h
                · exact Inv9_extend base st _ _ hmsg (batchStart_cache st resp)
                    (by
                      intro m hm
                      rw [List.mem_singleton] at hm
                      subst hm
                      exact dedupImpliesSuccess_of_none _ rfl) h
              have hbatch := execBatch_Inv9 env henv base resp.tool_calls
                (batchStart st resp) hb
              cases hq : execBatch env (batchStart st resp) resp.tool_calls with
              | error p =>
                  rw [hq] at hbatch
                  match p with
                  | (e, st') => exact hbatch
              | ok st' =>
                  rw [hq] at hbatch
                  exact ih (k + 1) st' hbatch
      · rw [if_neg hlt]
        exact Inv9_extend base st _
          [{ role := "system", content := "Reached maximum of "
              ++ toString cfg.max_tool_calls ++ " tool calls. Stopping." }]
          (by simp [budgetState, Conversation.add_system_message]) rfl
          (by
            intro m hm
            rw [List.mem_singleton] at hm
            subst hm
            exact dedupImpliesSuccess_of_none _ rfl) h

/-- C9: every value stored in the run-scoped download cache reports
success, so every Message appended during the run that records a
dedup-annotated result records a success; and a failed execution is not
cached, so a later download call with the same key invokes the
capability again. (The hypothesis `henv` is the capability contract:
raw capability results never arrive already dedup-annotated — the
`deduplicated` flag is added only by the loop itself.) -/
theorem C9_cache_only_successes (env : LoopEnv) (conv : Conversation)
    (henv : ∀ i n a r, env.exec i n a = .ok r → r.deduplicated = false) :
    (∀ st o, process_message env conv = .ok (st, o) →
      (∀ k r, lookupCache st.download_cache k = some r → r.success = true) ∧
      ∃ δ, st.conv.messages = conv.messages ++ δ ∧
        ∀ m ∈ δ, dedupImpliesSuccess m) ∧
    (∀ (st : LoopState) (tc : ToolCall) (r : ToolResult),
      tc.name = "download_file" →
      lookupCache st.download_cache (dedupKey tc.args) = none →
      env.exec st.tool_call_count tc.name tc.args = .ok r → r.success = false →
      ∃ st', execOneCall env st tc = .ok st' ∧
        st'.download_cache = st.download_cache ∧
        st'.execLog = st.execLog ++ [(st.tool_call_count, tc.name, tc.args)]) := by
  constructor
  · intro st o hst
    unfold process_message at hst
    cases hs : env.setup with
    | error e => rw [hs] at hst; cases hst
    | ok cfg =>
        rw [hs] at hst
        simp only at hst
        have hinit : Inv9 conv.messages (initState (insertSystemPrompt env conv)) := by
          refine ⟨?_, [], ?_, ?_⟩
          · intro k r hk
            cases hk
          · simp [initState, insertSystemPrompt_messages]
          · intro m hm
            cases hm
        have hloop := loopGo_Inv9 env cfg henv conv.messages (cfg.max_tool_calls + 1) 0
          (initState (insertSystemPrompt env conv)) hinit
        match hr : loopGo env cfg (cfg.max_tool_calls + 1) 0
            (initState (insertSystemPrompt env conv)) with
        | (st', o') =>
            rw [hr] at hst hloop
            have hfin : Inv9 conv.messages st := by
              match o' with
              | .finalText => simp at hst; rw [← hst.1]; exact hloop
              | .budgetExceeded => simp at hst; rw [← hst.1]; exact hloop
              | .outOfFuel => simp at hst; rw [← hst.1]; exact hloop
              | .fault e =>
                  simp at hst
                  rw [← hst.1]
                  exact Inv9_extend conv.messages st' _
                    [{ role := "system", content := "Error: " ++ e }]
                    (by simp [Conversation.add_system_message]) rfl
                    (by
                      intro m hm
                      rw [List.mem_singleton] at hm
                      subst hm
                      exact dedupImpliesSuccess_of_none _ rfl) hloop
            exact ⟨hfin.1, hfin.2⟩
  · intro st tc r hname hl hx hfail
    refine ⟨_, execOneCall_download_miss env st tc r hname hl hx, ?_, ?_⟩
    · have hcache := (afterExec_cases env
        { st with execLog := st.execLog ++ [(st.tool_call_count, tc.name, tc.args)],
                  download_cache := if r.success = true then (dedupKey tc.args, r) :: st.download_cache else st.download_cache }
        tc r (env.execDur st.tool_call_count)).1
      rw [hcache]
      simp [hfail]
    · have hlog := (afterExec_cases env
        { st with execLog := st.execLog ++ [(st.tool_call_count, tc.name, tc.args)],
                  download_cache := if r.success = true then (dedupKey tc.args, r) :: st.download_cache else st.download_cache }
        tc r (env.execDur st.tool_call_count)).2.1
      rw [hlog]

/-- Witness for `C9_cache_only_successes`: a failing first download is
not cached and the capability really was invoked. -/
theorem C9_cache_only_successes_witness :
    ∃ st', execOneCall envW9 (initState ({} : Conversation))
        (⟨"call_1", "download_file", ⟨"https://x.example/q4.pdf", "q4.pdf"⟩⟩ : ToolCall) = .ok st' ∧
      st'.download_cache = [] ∧
      st'.execLog = [(0, "download_file", (⟨"https://x.example/q4.pdf", "q4.pdf"⟩ : Args))] := by
  obtain ⟨st', h1, h2, h3⟩ := (C9_cache_only_successes envW9 {}
    (by
      intro i n a r h
      simp only [envW9] at h
      split at h <;> (cases h; rfl))).2
    (initState {}) ⟨"call_1", "download_file", ⟨"https://x.example/q4.pdf", "q4.pdf"⟩⟩
    { success := false, error := "Download error: timeout" } rfl rfl rfl rfl
  exact ⟨st', h1, by simpa [initState] using h2, by simpa [initState] using h3⟩

theorem isFileKeyMsg_activity (key n : String) (a : Args) (r : ToolResult) (d : Nat) :
    isFileKeyMsg key (Conversation.mkToolActivity n a r d) = false := rfl

theorem isFileKeyMsg_system (key w : String) :
    isFileKeyMsg key { role := "system", content := w } = false := rfl

theorem isFileKeyMsg_assistant (key t : String) :
    isFileKeyMsg key { role := "assistant", content := t } = false := rfl

theorem isFileKeyMsg_file (key f p : String) (sz : Nat) :
    isFileKeyMsg key (Conversation.mkFileMessage f p sz) = (casefold f == key) := rfl

theorem qualifyingDownload_system (key w : String) :
    qualifyingDownload key { role := "system", content := w } = false := rfl

theorem qualifyingDownload_assistant (key t : String) :
    qualifyingDownload key { role := "assistant", content := t } = false := rfl

theorem qualifyingDownload_file (key f p : String) (sz : Nat) :
    qualifyingDownload key (Conversation.mkFileMessage f p sz) = false := rfl

theorem qualifyingDownload_activity_iff (key n : String) (a : Args)
    (r : ToolResult) (d : Nat) :
    qualifyingDownload key (Conversation.mkToolActivity n a r d) = true ↔
      (n = "download_file" ∧ r.success = true ∧ r.deduplicated = false ∧
        verify_download r = none ∧ casefold r.filename = key) := by
  simp [qualifyingDownload, Conversation.mkToolActivity, Option.isNone_iff_eq_none,
        and_assoc]

/-- Extending the conversation with messages that are neither file
Messages nor qualifying download activities, without touching the
emitted-file set, preserves `FileInv`. -/
theorem FileInv_extend (base : List ChatMessage) (st st' : LoopState)
    (new : List ChatMessage)
    (hconv : st'.conv.messages = st.conv.messages ++ new)
    (hemit : st'.emitted_file_names = st.emitted_file_names)
    (hnew : ∀ m ∈ new, ∀ key, qualifyingDownload key m = false ∧
      isFileKeyMsg key m = false)
    (h : FileInv base st) : FileInv base st' := by
  obtain ⟨δ, hδ, hk⟩ := h
  refine ⟨δ ++ new, by rw [hconv, hδ, List.append_assoc], ?_⟩
  intro key
  obtain ⟨hiff, hcount⟩ := hk key
  have hqnew : new.any (qualifyingDownload key) = false := by
    rw [List.any_eq_false]
    intro m hm
    simp [(hnew m hm key).1]
  have hfnew : new.countP (isFileKeyMsg key) = 0 := by
    rw [List.countP_eq_zero]
    intro m hm
    simp [(hnew m hm key).2]
  constructor
  · rw [hemit, List.any_append, hqnew, Bool.or_false]
    exact hiff
  · rw [hemit, List.countP_append, hfnew, hcount]
    omega

/-- The executed call's tail preserves the emitted-file invariant in all
four policy outcomes. -/
theorem afterExec_FileInv (env : LoopEnv) (base : List ChatMessage)
    (st : LoopState) (tc : ToolCall) (r : ToolResult) (d : Nat)
    (h : FileInv base st) : FileInv base (afterExec env st tc r d) := by
  rcases (afterExec_cases env st tc r d).2.2.2 with
    ⟨hc, hemit, hmsg⟩ | ⟨hc, w, hv, hemit, hmsg⟩ | ⟨hc, hv, hin, hemit, hmsg⟩ |
    ⟨hc, hv, hnin, hemit, hmsg⟩
  · refine FileInv_extend base st _ _ hmsg hemit ?_ h
    intro m hm key
    rw [List.mem_singleton] at hm
    subst hm
    refine ⟨?_, isFileKeyMsg_activity key tc.name tc.args r d⟩
    cases hqb : qualifyingDownload key (Conversation.mkToolActivity tc.name tc.args r d) with
    | false => rfl
    | true =>
        obtain ⟨h1, h2, h3, -, -⟩ :=
          (qualifyingDownload_activity_iff key tc.name tc.args r d).mp hqb
        exact absurd ⟨h1, h2, h3⟩ hc
  · refine FileInv_extend base st _ _ hmsg hemit ?_ h
    intro m hm key
    rcases List.mem_pair.mp hm with hm | hm <;> subst hm
    · refine ⟨?_, isFileKeyMsg_activity key tc.name tc.args r d⟩
      cases hqb : qualifyingDownload key (Conversation.mkToolActivity tc.name tc.args r d) with
      | false => rfl
      | true =>
          obtain ⟨-, -, -, hv', -⟩ :=
            (qualifyingDownload_activity_iff key tc.name tc.args r d).mp hqb
          rw [hv] at hv'
          cases hv'
    · exact ⟨qualifyingDownload_system key w, isFileKeyMsg_system key w⟩
  · obtain ⟨δ, hδ, hk⟩ := h
    refine ⟨δ ++ [Conversation.mkToolActivity tc.name tc.args r d],
      by rw [hmsg, hδ, List.append_assoc], ?_⟩
    intro key
    obtain ⟨hiff, hcount⟩ := hk key
    rw [hemit]
    by_cases hkey : key = casefold r.filename
    · subst hkey
      refine ⟨?_, ?_⟩
      · have hqact : qualifyingDownload (casefold r.filename)
            (Conversation.mkToolActivity tc.name tc.args r d) = true := by
          rw [qualifyingDownload_activity_iff]
          exact ⟨hc.1, hc.2.1, hc.2.2, hv, rfl⟩
        simp [List.any_append, hqact, hin]
      · rw [List.countP_append]
        simp [List.countP_cons, isFileKeyMsg_activity, hcount]
    · have hqf : qualifyingDownload key
          (Conversation.mkToolActivity tc.name tc.args r d) = false := by
        cases hqb : qualifyingDownload key
            (Conversation.mkToolActivity tc.name tc.args r d) with
        | false => rfl
        | true =>
            obtain ⟨-, -, -, -, hkk⟩ :=
              (qualifyingDownload_activity_iff key tc.name tc.args r d).mp hqb
            exact absurd hkk.symm hkey
      refine ⟨?_, ?_⟩
      · rw [List.any_append]
        simp [hqf, hiff]
      · rw [List.countP_append]
        simp [List.countP_cons, isFileKeyMsg_activity, hcount]
  · obtain ⟨δ, hδ, hk⟩ := h
    refine ⟨δ ++ [Conversation.mkToolActivity tc.name tc.args r d,
      Conversation.mkFileMessage r.filename r.path r.size_bytes],
      by rw [hmsg, hδ, List.append_assoc], ?_⟩
    intro key
    obtain ⟨hiff, hcount⟩ := hk key
    rw [hemit]
    by_cases hkey : key = casefold r.filename
    · subst hkey
      refine ⟨?_, ?_⟩
      · have hqact : qualifyingDownload (casefold r.filename)
            (Conversation.mkToolActivity tc.name tc.args r d) = true := by
          rw [qualifyingDownload_activity_iff]
          exact ⟨hc.1, hc.2.1, hc.2.2, hv, rfl⟩
        simp [List.any_append, hqact]
      · rw [List.countP_append]
        have h0 : List.countP (isFileKeyMsg (casefold r.filename)) δ = 0 := by
          rw [hcount, if_neg hnin]
        rw [h0]
        have h1 : List.countP (isFileKeyMsg (casefold r.filename))
            [Conversation.mkToolActivity tc.name tc.args r d,
             Conversation.mkFileMessage r.filename r.path r.size_bytes] = 1 := by
          simp [List.countP_cons, isFileKeyMsg_activity, isFileKeyMsg_file]
        rw [h1]
        simp
    · have hqf : qualifyingDownload key
          (Conversation.mkToolActivity tc.name tc.args r d) = false := by
        cases hqb : qualifyingDownload key
            (Conversation.mkToolActivity tc.name tc.args r d) with
        | false => rfl
        | true =>
            obtain ⟨-, -, -, -, hkk⟩ :=
              (qualifyingDownload_activity_iff key tc.name tc.args r d).mp hqb
            exact absurd hkk.symm hkey
      have hff : isFileKeyMsg key
          (Conversation.mkFileMessage r.filename r.path r.size_bytes) = false := by
        rw [isFileKeyMsg_file]
        simp
        intro hcon
        exact hkey hcon.symm
      refine ⟨?_, ?_⟩
      · rw [List.any_append]
        have hmem : (key ∈ casefold r.filename :: st.emitted_file_names) ↔
            key ∈ st.emitted_file_names := by
          simp [List.mem_cons, hkey]
        rw [hmem]
        simp [hqf, qualifyingDownload_file, hiff]
      · rw [List.countP_append]
        have hmem : (key ∈ casefold r.filename :: st.emitted_file_names) ↔
            key ∈ st.emitted_file_names := by
          simp [List.mem_cons, hkey]
        simp only [hmem]
        simp [List.countP_cons, isFileKeyMsg_activity, hff, hcount]

/-- One `for`-loop iteration preserves the emitted-file invariant. -/
theorem execOneCall_FileInv (env : LoopEnv) (base : List ChatMessage)
    (st : LoopState) (tc : ToolCall) (h : FileInv base st) :
    FileInv base (stateOf (execOneCall env st tc)) := by
  rcases execOneCall_shape env st tc with
    ⟨e, hq⟩ | ⟨hk, hq⟩ | ⟨c, hn, hl, hq⟩ | ⟨r, hn, hl, hx, hq⟩ | ⟨r, hk, hn, hx, hq⟩
  · rw [hq]
    exact FileInv_extend base st _ [] (by simp [stateOf]) (by simp [stateOf])
      (by simp) h
  · rw [hq]
    exact afterExec_FileInv env base st tc _ 0 h
  · rw [hq]
    exact afterExec_FileInv env base st tc _ 0 h
  · rw [hq]
    exact afterExec_FileInv env base
      { st with execLog := st.execLog ++ [(st.tool_call_count, tc.name, tc.args)],
                download_cache := if r.success = true then (dedupKey tc.args, r) :: st.download_cache else st.download_cache }
      tc r (env.execDur st.tool_call_count) h
  · rw [hq]
    exact afterExec_FileInv env base st tc r (env.execDur st.tool_call_count) h

theorem execBatch_FileInv (env : LoopEnv) (base : List ChatMessage) :
    ∀ (calls : List ToolCall) (st : LoopState), FileInv base st →
      FileInv base (stateOf (execBatch env st calls)) := by
  intro calls
  induction calls with
  | nil => intro st h; exact h
  | cons tc rest ih =>
      intro st h
      unfold execBatch
      cases hc : execOneCall env st tc with
      | error e =>
          have := execOneCall_FileInv env base st tc h
          rw [hc] at this
          exact this
      | ok st₁ =>
          have := execOneCall_FileInv env base st tc h
          rw [hc] at this
          exact ih st₁ this

theorem loopGo_FileInv (env : LoopEnv) (cfg : AgentCfg) (base : List ChatMessage) :
    ∀ (fuel k : Nat) (st : LoopState), FileInv base st →
      FileInv base ((loopGo env cfg fuel k st).1) := by
  intro fuel
  induction fuel with
  | zero => intro k st h; exact h
  | succ n ih =>
      intro k st h
      unfold loopGo
      by_cases hlt : st.tool_call_count < cfg.max_tool_calls
      · rw [if_pos hlt]
        cases hr : env.llm k with
        | error e => exact h
        | ok resp =>
            by_cases hne : resp.tool_calls.isEmpty
            · simp only [hne, if_true]
              exact FileInv_extend base st _
                [{ role := "assistant", content := resp.content }]
                (by simp [finalTextState, Conversation.add_assistant_message])
                rfl
                (by
                  intro m hm key
                  rw [List.mem_singleton] at hm
                  subst hm
                  exact ⟨qualifyingDownload_assistant key resp.content,
                         isFileKeyMsg_assistant key resp.content⟩) h
            · simp only [hne, if_false, Bool.false_eq_true]
              have hb : FileInv base (batchStart st resp) := by
                rcases batchStart_messages st resp with hmsg | hmsg
                · exact FileInv_extend base st _ [] (by simp [hmsg])
                    (batchStart_emitted st resp) (by simp) h
                · exact FileInv_extend base st _ _ hmsg
                    (batchStart_emitted st resp)
                    (by
                      intro m hm key
                      rw [List.mem_singleton] at hm
                      subst hm
                      exact ⟨qualifyingDownload_assistant key resp.content,
                             isFileKeyMsg_assistant key resp.content⟩) h
              have hbatch := execBatch_FileInv env base resp.tool_calls
                (batchStart st resp) hb
              cases hq : execBatch env (batchStart st resp) resp.tool_calls with
              | error p =>
                  rw [hq] at hbatch
                  match p with
                  | (e, st') => exact hbatch
              | ok st' =>
                  rw [hq] at hbatch
                  exact ih (k + 1) st' hbatch
      · rw [if_neg hlt]
        exact FileInv_extend base st _
          [{ role := "system", content := "Reached maximum of "
              ++ toString cfg.max_tool_calls ++ " tool calls. Stopping." }]
          (by simp [budgetState, Conversation.add_system_message]) rfl
          (by
            intro m hm key
            rw [List.mem_singleton] at hm
            subst hm
            exact ⟨qualifyingDownload_system key _, isFileKeyMsg_system key _⟩) h

/-- C5: within one invocation, file-Message emission is a function of
the case-folded filename alone — among the Messages appended during the
run, each case-folded name receives exactly one file Message when some
successful, non-deduplicated, warning-free download produced it (from
whatever URL, in whatever order), and none otherwise. -/
theorem C5_one_file_message_per_name (env : LoopEnv) (conv : Conversation) :
    ∃ δ, (runConv (process_message env conv)).messages = conv.messages ++ δ ∧
      ∀ key, δ.countP (isFileKeyMsg key) =
        (if δ.any (qualifyingDownload key) = true then 1 else 0) := by
  have hfin : FileInv conv.messages
      (initState (insertSystemPrompt env conv)) := by
    refine ⟨[], by simp [initState, insertSystemPrompt_messages], ?_⟩
    intro key
    simp [initState]
  unfold process_message runConv
  cases hs : env.setup with
  | error e =>
      refine ⟨[], by simp, ?_⟩
      intro key
      simp
  | ok cfg =>
      simp only
      have hloop := loopGo_FileInv env cfg conv.messages (cfg.max_tool_calls + 1) 0
        (initState (insertSystemPrompt env conv)) hfin
      match hr : loopGo env cfg (cfg.max_tool_calls + 1) 0
          (initState (insertSystemPrompt env conv)) with
      | (st', o') =>
          rw [hr] at hloop
          have hfinal : ∀ st'' : LoopState,
              FileInv conv.messages st'' →
              ∃ δ, st''.conv.messages = conv.messages ++ δ ∧
                ∀ key, δ.countP (isFileKeyMsg key) =
                  (if δ.any (qualifyingDownload key) = true then 1 else 0) := by
            intro st'' hinv
            obtain ⟨δ, hδ, hk⟩ := hinv
            refine ⟨δ, hδ, ?_⟩
            intro key
            obtain ⟨hiff, hcount⟩ := hk key
            rw [hcount]
            by_cases hmem : key ∈ st''.emitted_file_names
            · rw [if_pos hmem, if_pos (hiff.mp hmem)]
            · rw [if_neg hmem, if_neg (fun hany => hmem (hiff.mpr hany))]
          match o' with
          | .finalText => exact hfinal st' hloop
          | .budgetExceeded => exact hfinal st' hloop
          | .outOfFuel => exact hfinal st' hloop
          | .fault e =>
              refine hfinal _ (FileInv_extend conv.messages st' _
                [{ role := "system", content := "Error: " ++ e }]
                (by simp [Conversation.add_system_message]) rfl
                (by
                  intro m hm key
                  rw [List.mem_singleton] at hm
                  subst hm
                  exact ⟨qualifyingDownload_system key _, isFileKeyMsg_system key _⟩)
                hloop)

end BrightAgent
